import Mathlib

/-!
# Verification of the multi-source market data aggregation layer

Shallow embedding of the core of the `goquant-market-seasonality-explorer`
repository: the API manager (aggregator + health tracker + retry/backoff),
the synthetic data generator (`mock-data-service.ts`), the per-exchange
adapters (`kucoin-api.ts`, `okx-api.ts`, and the Coinbase adapter, which is
absent from the provided sources and is modelled from the spec), and the
streaming channels (`enhanced-websocket.ts` and the plain `WebSocketService`).

Modelling conventions:
* JavaScript numbers that carry decimal market data are modelled as `ℚ`;
  `toFixed(n)` (decimal-string rounding) is `roundTo n`.
* Epoch-millisecond timestamps (`Date.now()`) are passed in as an explicit
  `now : ℤ` parameter.
* `Math.random()` is modelled as an explicit stream `rnd : ℕ → ℚ` of draws
  in `[0, 1)`, consumed in the order the source draws them.
* A JavaScript `Map` is an association list (`assocGet`/`assocSet`/
  `assocDelete`), a `Set` is a duplicate-free insertion-ordered list.
* `async` functions are pure state-passing functions; a thrown exception is
  an `Except.error`; awaited backoff delays and the number of adapter
  invocations are returned explicitly so that claims about elapsed delay or
  skipped network attempts can be stated.
-/

/-- Association-list lookup, first matching key wins (JS `Map.get`). -/
def assocGet {κ ν : Type} [DecidableEq κ] : List (κ × ν) → κ → Option ν
  | [], _ => none
  | (k, v) :: rest, s => if k = s then some v else assocGet rest s

/-- Association-list update: replace the first binding of the key in place,
append a new binding if absent (JS `Map.set`). -/
def assocSet {κ ν : Type} [DecidableEq κ] : List (κ × ν) → κ → ν → List (κ × ν)
  | [], s, v => [(s, v)]
  | (k, w) :: rest, s, v =>
    if k = s then (s, v) :: rest else (k, w) :: assocSet rest s v

/-- Association-list removal of the first binding of a key (JS `Map.delete`). -/
def assocDelete {κ ν : Type} [DecidableEq κ] : List (κ × ν) → κ → List (κ × ν)
  | [], _ => []
  | (k, w) :: rest, s => if k = s then rest else (k, w) :: assocDelete rest s

theorem assocGet_assocSet_self {κ ν : Type} [DecidableEq κ]
    (l : List (κ × ν)) (s : κ) (v : ν) : assocGet (assocSet l s v) s = some v := by
  induction l with
  | nil => simp [assocGet, assocSet]
  | cons p rest ih =>
    obtain ⟨k, w⟩ := p
    by_cases hk : k = s
    · simp [assocGet, assocSet, hk]
    · simp [assocGet, assocSet, hk, ih]

theorem assocGet_assocSet_other {κ ν : Type} [DecidableEq κ]
    (l : List (κ × ν)) (s k : κ) (v : ν) (hks : k ≠ s) :
    assocGet (assocSet l s v) k = assocGet l k := by
  have hsk : s ≠ k := Ne.symm hks
  induction l with
  | nil => simp [assocGet, assocSet, hsk]
  | cons p rest ih =>
    obtain ⟨k', w⟩ := p
    by_cases hk : k' = s
    · subst hk
      simp [assocGet, assocSet, hsk, hks]
    · simp [assocGet, assocSet, hk, ih]

theorem mem_of_assocGet {κ ν : Type} [DecidableEq κ]
    {l : List (κ × ν)} {s : κ} {v : ν} (h : assocGet l s = some v) : (s, v) ∈ l := by
  induction l with
  | nil => simp [assocGet] at h
  | cons p rest ih =>
    obtain ⟨k, w⟩ := p
    by_cases hk : k = s
    · subst hk
      simp [assocGet] at h
      simp [h]
    · simp [assocGet, hk] at h
      exact List.mem_cons_of_mem _ (ih h)

theorem assocSet_eq_self {κ ν : Type} [DecidableEq κ]
    {l : List (κ × ν)} {s : κ} {v : ν} (h : assocGet l s = some v) :
    assocSet l s v = l := by
  induction l with
  | nil => simp [assocGet] at h
  | cons p rest ih =>
    obtain ⟨k, w⟩ := p
    by_cases hk : k = s
    · subst hk
      simp [assocGet] at h
      simp [assocSet, h]
    · simp [assocGet, hk] at h
      simp [assocSet, hk, ih h]

/-- `toFixed digits` on a nonnegative JS number: round half-up to the given
number of decimal places (the value represented by the decimal string). -/
def roundTo (digits : ℕ) (x : ℚ) : ℚ :=
  (⌊x * (10 : ℚ) ^ digits + 1 / 2⌋ : ℚ) / (10 : ℚ) ^ digits

theorem roundTo_le (digits : ℕ) (x : ℚ) :
    roundTo digits x ≤ x + 1 / (2 * (10 : ℚ) ^ digits) := by
  have hpow : (0 : ℚ) < (10 : ℚ) ^ digits := by positivity
  have h := Int.floor_le (x * (10 : ℚ) ^ digits + 1 / 2)
  rw [roundTo, div_le_iff₀ hpow]
  calc (⌊x * (10 : ℚ) ^ digits + 1 / 2⌋ : ℚ) ≤ x * (10 : ℚ) ^ digits + 1 / 2 := h
    _ = (x + 1 / (2 * (10 : ℚ) ^ digits)) * (10 : ℚ) ^ digits := by
        field_simp
        ring

theorem lt_roundTo (digits : ℕ) (x : ℚ) :
    x - 1 / (2 * (10 : ℚ) ^ digits) < roundTo digits x := by
  have hpow : (0 : ℚ) < (10 : ℚ) ^ digits := by positivity
  have h := Int.lt_floor_add_one (x * (10 : ℚ) ^ digits + 1 / 2)
  rw [roundTo, lt_div_iff₀ hpow]
  have : (x - 1 / (2 * (10 : ℚ) ^ digits)) * (10 : ℚ) ^ digits
      = x * (10 : ℚ) ^ digits + 1 / 2 - 1 := by
    field_simp
    ring
  rw [this]
  linarith

/-! ## Shared schema (`src/types/api.ts`) -/

/-- `APISource` from `api-manager.ts`. -/
inductive APISource
  | coinbase
  | okx
  | kucoin
  | mock
deriving DecidableEq, Repr

/-- One price level of an orderbook (`{ price, quantity }`, decimal strings). -/
structure OrderLevel where
  price : ℚ
  quantity : ℚ
deriving DecidableEq, Repr

/-- The shared `Orderbook` schema. -/
structure Orderbook where
  symbol : String
  bids : List OrderLevel
  asks : List OrderLevel
  lastUpdateId : ℤ
deriving DecidableEq, Repr

/-- The shared `Ticker24h` schema (decimal strings as `ℚ`, epoch ms as `ℤ`). -/
structure Ticker24h where
  symbol : String
  priceChange : ℚ
  priceChangePercent : ℚ
  weightedAvgPrice : ℚ
  prevClosePrice : ℚ
  lastPrice : ℚ
  bidPrice : ℚ
  askPrice : ℚ
  openPrice : ℚ
  highPrice : ℚ
  lowPrice : ℚ
  volume : ℚ
  quoteVolume : ℚ
  openTime : ℤ
  closeTime : ℤ
  count : ℕ
deriving DecidableEq, Repr

/-- The shared `Kline` schema; `open` is a Lean keyword, so the field is
named `open_`. -/
structure Kline where
  openTime : ℤ
  open_ : ℚ
  high : ℚ
  low : ℚ
  close : ℚ
  volume : ℚ
  closeTime : ℤ
  quoteAssetVolume : ℚ
  numberOfTrades : ℕ
  takerBuyBaseAssetVolume : ℚ
  takerBuyQuoteAssetVolume : ℚ
deriving DecidableEq, Repr

/-! ## Sorting by price (`Array.prototype.sort` with a price comparator)

`mock-data-service.ts` sorts bid levels descending and ask levels ascending
by `parseFloat(price)`. We model the sort as an insertion sort parameterised
by a Boolean "goes before" test. -/

/-- Insert `x` in front of the first element it may precede. -/
def insertBy (r : OrderLevel → OrderLevel → Bool) (x : OrderLevel) :
    List OrderLevel → List OrderLevel
  | [] => [x]
  | y :: ys => if r x y then x :: y :: ys else y :: insertBy r x ys

/-- Insertion sort with "goes before" test `r`. -/
def sortBy (r : OrderLevel → OrderLevel → Bool) : List OrderLevel → List OrderLevel
  | [] => []
  | x :: xs => insertBy r x (sortBy r xs)

/-- Descending-by-price comparator (`(a, b) => parseFloat(b.price) - parseFloat(a.price)`). -/
def descByPrice (a b : OrderLevel) : Bool := b.price ≤ a.price

/-- Ascending-by-price comparator (`(a, b) => parseFloat(a.price) - parseFloat(b.price)`). -/
def ascByPrice (a b : OrderLevel) : Bool := a.price ≤ b.price

theorem length_insertBy (r : OrderLevel → OrderLevel → Bool) (x : OrderLevel)
    (l : List OrderLevel) : (insertBy r x l).length = l.length + 1 := by
  induction l with
  | nil => simp [insertBy]
  | cons y ys ih =>
    by_cases h : r x y <;> simp [insertBy, h, ih]

theorem length_sortBy (r : OrderLevel → OrderLevel → Bool) (l : List OrderLevel) :
    (sortBy r l).length = l.length := by
  induction l with
  | nil => simp [sortBy]
  | cons x xs ih => simp [sortBy, length_insertBy, ih]

theorem mem_insertBy {r : OrderLevel → OrderLevel → Bool} {x a : OrderLevel}
    {l : List OrderLevel} : a ∈ insertBy r x l ↔ a = x ∨ a ∈ l := by
  induction l with
  | nil => simp [insertBy]
  | cons y ys ih =>
    by_cases h : r x y
    · simp [insertBy, h]
    · simp [insertBy, h, ih]
      tauto

theorem mem_sortBy {r : OrderLevel → OrderLevel → Bool} {a : OrderLevel}
    {l : List OrderLevel} : a ∈ sortBy r l ↔ a ∈ l := by
  induction l with
  | nil => simp [sortBy]
  | cons x xs ih => simp [sortBy, mem_insertBy, ih]

theorem pairwise_insertBy {P : OrderLevel → OrderLevel → Prop}
    {r : OrderLevel → OrderLevel → Bool}
    (hrt : ∀ a b, r a b = true → P a b) (hrf : ∀ a b, r a b = false → P b a)
    (htrans : ∀ a b c, P a b → P b c → P a c)
    {x : OrderLevel} {l : List OrderLevel} (hl : l.Pairwise P) :
    (insertBy r x l).Pairwise P := by
  induction l with
  | nil => simp [insertBy]
  | cons y ys ih =>
    rcases List.pairwise_cons.mp hl with ⟨hy, hys⟩
    by_cases h : r x y
    · rw [insertBy, if_pos h]
      refine List.pairwise_cons.mpr ⟨?_, hl⟩
      intro z hz
      rcases List.mem_cons.mp hz with hz | hz
      · exact hz ▸ hrt x y h
      · exact htrans x y z (hrt x y h) (hy z hz)
    · rw [insertBy, if_neg h]
      refine List.pairwise_cons.mpr ⟨?_, ih hys⟩
      intro z hz
      rcases mem_insertBy.mp hz with hz | hz
      · exact hz ▸ hrf x y (by simpa using h)
      · exact hy z hz

theorem pairwise_sortBy {P : OrderLevel → OrderLevel → Prop}
    {r : OrderLevel → OrderLevel → Bool}
    (hrt : ∀ a b, r a b = true → P a b) (hrf : ∀ a b, r a b = false → P b a)
    (htrans : ∀ a b c, P a b → P b c → P a c)
    (l : List OrderLevel) : (sortBy r l).Pairwise P := by
  induction l with
  | nil => simp [sortBy]
  | cons x xs ih => exact pairwise_insertBy hrt hrf htrans ih

/-! ## Synthetic data generator (`src/services/mock-data-service.ts`) -/

namespace MockDataService

/-- `generateOrderbook(symbol)` from `mock-data-service.ts`.

Random draws, in source order: draw 0 is the base price draw; bid level `i`
draws its price perturbation (`rnd (1 + 2*i)`) then its quantity
(`rnd (2 + 2*i)`); ask level `i` draws `rnd (41 + 2*i)` then `rnd (42 + 2*i)`.
`lastUpdateId` is `Date.now()`. -/
def generateOrderbook (rnd : ℕ → ℚ) (symbol : String) (now : ℤ) : Orderbook :=
  let basePrice : ℚ := 45000 + (rnd 0 - 1 / 2) * 10000
  let spread : ℚ := basePrice * (2 / 10000)
  let bids : List OrderLevel := (List.range 20).map (fun (i : ℕ) =>
    { price := roundTo 2 (basePrice - spread / 2 - ((i : ℚ) + 1) * rnd (1 + 2 * i) * 50),
      quantity := roundTo 4 (rnd (2 + 2 * i) * 2 + 1 / 10) })
  let asks : List OrderLevel := (List.range 20).map (fun (i : ℕ) =>
    { price := roundTo 2 (basePrice + spread / 2 + ((i : ℚ) + 1) * rnd (41 + 2 * i) * 50),
      quantity := roundTo 4 (rnd (42 + 2 * i) * 2 + 1 / 10) })
  { symbol := symbol,
    bids := sortBy descByPrice bids,
    asks := sortBy ascByPrice asks,
    lastUpdateId := now }

/-- `generate24hTicker(symbol)` from `mock-data-service.ts`. Draw order:
base price, volatility, change, volume, high padding, low padding, count. -/
def generate24hTicker (rnd : ℕ → ℚ) (symbol : String) (now : ℤ) : Ticker24h :=
  let basePrice : ℚ := 45000 + (rnd 0 - 1 / 2) * 10000
  let volatility : ℚ := rnd 1 * (1 / 10)
  let change : ℚ := (rnd 2 - 1 / 2) * volatility * basePrice
  let volume : ℚ := rnd 3 * 50000 + 10000
  let openPrice : ℚ := basePrice - change
  let closePrice : ℚ := basePrice
  let highPrice : ℚ := max openPrice closePrice * (1 + rnd 4 * (5 / 100))
  let lowPrice : ℚ := min openPrice closePrice * (1 - rnd 5 * (5 / 100))
  { symbol := symbol,
    priceChange := roundTo 2 change,
    priceChangePercent := roundTo 2 (change / openPrice * 100),
    weightedAvgPrice := roundTo 2 ((openPrice + closePrice) / 2),
    prevClosePrice := roundTo 2 openPrice,
    lastPrice := roundTo 2 closePrice,
    bidPrice := roundTo 2 (closePrice - 25),
    askPrice := roundTo 2 (closePrice + 25),
    openPrice := roundTo 2 openPrice,
    highPrice := roundTo 2 highPrice,
    lowPrice := roundTo 2 lowPrice,
    volume := roundTo 2 volume,
    quoteVolume := roundTo 2 (volume * closePrice),
    openTime := now - 24 * 60 * 60 * 1000,
    closeTime := now,
    count := (⌊rnd 6 * 100000 + 50000⌋).toNat }

/-- One candle of `generateKlines`: the body of the `Array.from` callback,
threading the walking `currentPrice`. Draws per index `i`:
daily change `rnd (2 + 4*i)`, volatility `rnd (3 + 4*i)`, volume
`rnd (4 + 4*i)`, trade count `rnd (5 + 4*i)`. -/
def generateKline (rnd : ℕ → ℚ) (trend : ℚ) (now intervalMs : ℤ) (limit : ℕ)
    (i : ℕ) (currentPrice : ℚ) : Kline × ℚ :=
  let time : ℤ := now - ((limit : ℤ) - (i : ℤ) - 1) * intervalMs
  let dailyChange : ℚ := trend + (rnd (2 + 4 * i) - 1 / 2) * (3 / 100)
  let openP : ℚ := currentPrice
  let closeP : ℚ := openP * (1 + dailyChange)
  let volatility : ℚ := rnd (3 + 4 * i) * (5 / 100)
  let highP : ℚ := max openP closeP * (1 + volatility / 2)
  let lowP : ℚ := min openP closeP * (1 - volatility / 2)
  let volume : ℚ := rnd (4 + 4 * i) * 20000 + 5000
  ({ openTime := time,
     open_ := roundTo 2 openP,
     high := roundTo 2 highP,
     low := roundTo 2 lowP,
     close := roundTo 2 closeP,
     volume := roundTo 2 volume,
     closeTime := time + intervalMs - 1,
     quoteAssetVolume := roundTo 2 (volume * closeP),
     numberOfTrades := (⌊rnd (5 + 4 * i) * 5000 + 1000⌋).toNat,
     takerBuyBaseAssetVolume := roundTo 2 (volume * (55 / 100)),
     takerBuyQuoteAssetVolume := roundTo 2 (volume * closeP * (55 / 100)) },
   closeP)

/-- Builds candles `i, i+1, ...` while `count` remain. -/
def generateKlinesGo (rnd : ℕ → ℚ) (trend : ℚ) (now intervalMs : ℤ) (limit : ℕ) :
    ℕ → ℕ → ℚ → List Kline
  | 0, _, _ => []
  | count + 1, i, currentPrice =>
    let r := generateKline rnd trend now intervalMs limit i currentPrice
    r.1 :: generateKlinesGo rnd trend now intervalMs limit count (i + 1) r.2

/-- `generateKlines(symbol, interval, limit)` from `mock-data-service.ts`:
a random walk whose close becomes the next candle's open, with a persistent
trend term. Draw 0 is the starting price, draw 1 the trend. The `interval`
argument is accepted but, as in the source, the step is always one day. -/
def generateKlines (rnd : ℕ → ℚ) (symbol : String) (interval : String)
    (limit : ℕ) (now : ℤ) : List Kline :=
  let intervalMs : ℤ := 24 * 60 * 60 * 1000
  let currentPrice : ℚ := 45000 + (rnd 0 - 1 / 2) * 10000
  let trend : ℚ := (rnd 1 - 1 / 2) * (2 / 1000)
  generateKlinesGo rnd trend now intervalMs limit limit 0 currentPrice

end MockDataService

/-! ## Aggregator and health tracker (`api-manager.ts`) -/

/-- Per-source mutable health record (`APIHealth`). -/
structure APIHealth where
  source : APISource
  isHealthy : Bool
  lastChecked : ℤ
  responseTime : Option ℤ
  errorCount : ℕ
  consecutiveFailures : ℕ
deriving DecidableEq, Repr

/-- `RetryConfig` (`maxRetries`, `baseDelay` ms, `maxDelay` ms). -/
structure RetryConfig where
  maxRetries : ℕ
  baseDelay : ℕ
  maxDelay : ℕ
deriving DecidableEq, Repr

/-- The private mutable state of `APIManagerService`. -/
structure ManagerState where
  apiHealth : List (APISource × APIHealth)
  preferredOrder : List APISource
  currentSource : APISource
  fallbackToMock : Bool
  retryConfig : RetryConfig
deriving DecidableEq, Repr

/-- Errors observable inside the aggregator's retry loop: the wrapped
operation's own thrown error, the `No health info` guard, and the final
`Max retries exceeded` throw. -/
inductive RetryErr (ε : Type) : Type
  | op (e : ε)
  | noHealthInfo
  | maxRetriesExceeded
deriving DecidableEq

namespace APIManagerService

/-- The health record a fresh manager creates for each preferred source. -/
def initialHealth (source : APISource) : APIHealth :=
  { source := source, isHealthy := true, lastChecked := 0,
    responseTime := none, errorCount := 0, consecutiveFailures := 0 }

/-- State after the constructor ran: one healthy record per preferred
source, `currentSource = 'coinbase'`, mock fallback off, default retry
configuration. -/
def initialState : ManagerState :=
  { apiHealth := [(.coinbase, initialHealth .coinbase),
                  (.okx, initialHealth .okx),
                  (.kucoin, initialHealth .kucoin)],
    preferredOrder := [.coinbase, .okx, .kucoin],
    currentSource := .coinbase,
    fallbackToMock := false,
    retryConfig := { maxRetries := 3, baseDelay := 1000, maxDelay := 10000 } }

/-- `checkAndEnableMockFallback()`: latch global mock fallback when every
tracked source has `consecutiveFailures >= maxRetries`. -/
def checkAndEnableMockFallback (st : ManagerState) : ManagerState :=
  let allUnhealthy :=
    st.apiHealth.all (fun p => st.retryConfig.maxRetries ≤ p.2.consecutiveFailures)
  if allUnhealthy && !st.fallbackToMock then { st with fallbackToMock := true } else st

/-- The record produced by the mutation block of `updateHealth`. -/
def updatedRecord (health : APIHealth) (isHealthy : Bool)
    (responseTime : Option ℤ) (now : ℤ) : APIHealth :=
  { health with
    isHealthy := isHealthy,
    lastChecked := now,
    responseTime := responseTime,
    errorCount := if isHealthy then 0 else health.errorCount + 1,
    consecutiveFailures := if isHealthy then 0 else health.consecutiveFailures + 1 }

/-- `updateHealth(source, isHealthy, responseTime?)`: mutate the source's
record if it exists, then auto-check the global escalation condition when the
updated record reached `maxRetries` consecutive failures. -/
def updateHealth (st : ManagerState) (source : APISource) (isHealthy : Bool)
    (responseTime : Option ℤ) (now : ℤ) : ManagerState :=
  match assocGet st.apiHealth source with
  | none => st
  | some health =>
    let h := updatedRecord health isHealthy responseTime now
    let st1 := { st with apiHealth := assocSet st.apiHealth source h }
    if st1.retryConfig.maxRetries ≤ h.consecutiveFailures
    then checkAndEnableMockFallback st1
    else st1

/-- Result of one run of the retry loop: the state after all health updates,
the backoff delays awaited (ms, in order), the number of times the wrapped
operation was invoked, and the outcome. -/
structure RetryResult (ε α : Type) where
  state : ManagerState
  delays : List ℕ
  attempts : ℕ
  outcome : Except (RetryErr ε) α

/-- The `for (let attempt = 0; ...)` loop of `retryWithExponentialBackoff`.
`op i` is the outcome of the `i`-th invocation of the wrapped operation;
`fuel` is the number of iterations left (`maxRetries - attempt`). On failure
at the last attempt the operation's own error is rethrown; otherwise the
delay `min(baseDelay * 2^attempt, maxDelay)` is awaited and the loop
continues. A loop that never runs throws `Max retries exceeded`. -/
def retryGo {ε α : Type} (op : ℕ → Except ε α) (source : APISource) (now : ℤ) :
    ManagerState → ℕ → ℕ → RetryResult ε α
  | st, 0, _ => ⟨st, [], 0, .error .maxRetriesExceeded⟩
  | st, fuel + 1, attempt =>
    match op attempt with
    | .ok v => ⟨updateHealth st source true none now, [], 1, .ok v⟩
    | .error e =>
      let st1 := updateHealth st source false none now
      if fuel = 0 then ⟨st1, [], 1, .error (.op e)⟩
      else
        let delay := min (st1.retryConfig.baseDelay * 2 ^ attempt) st1.retryConfig.maxDelay
        let r := retryGo op source now st1 fuel (attempt + 1)
        ⟨r.state, delay :: r.delays, r.attempts + 1, r.outcome⟩

/-- `retryWithExponentialBackoff(operation, source)`: throws `No health
info` when the source is untracked, else runs up to `maxRetries` attempts. -/
def retryWithExponentialBackoff {ε α : Type} (st : ManagerState)
    (op : ℕ → Except ε α) (source : APISource) (now : ℤ) : RetryResult ε α :=
  match assocGet st.apiHealth source with
  | none => ⟨st, [], 0, .error .noHealthInfo⟩
  | some _ => retryGo op source now st st.retryConfig.maxRetries 0

/-- Value returned by one aggregator data call, together with the state
after the call and the awaited-delay / adapter-invocation instrumentation. -/
structure CallResult (α : Type) where
  state : ManagerState
  data : α
  source : APISource
  delays : List ℕ
  attempts : ℕ
deriving Repr

/-- `getOrderbook(symbol, limit)`: serve synthetic data immediately in
global mock-fallback mode; otherwise run the current adapter's operation
through the retry loop, tagging the result with the real source on success
and falling back to a `'mock'`-tagged synthetic orderbook on any error. -/
def getOrderbook {ε : Type} (st : ManagerState) (op : ℕ → Except ε Orderbook)
    (rnd : ℕ → ℚ) (symbol : String) (now : ℤ) : CallResult Orderbook :=
  if st.fallbackToMock then
    ⟨st, MockDataService.generateOrderbook rnd symbol now, .mock, [], 0⟩
  else
    let source := st.currentSource
    let r := retryWithExponentialBackoff st op source now
    match r.outcome with
    | .ok orderbook => ⟨r.state, orderbook, source, r.delays, r.attempts⟩
    | .error _ =>
      ⟨r.state, MockDataService.generateOrderbook rnd symbol now, .mock,
       r.delays, r.attempts⟩

/-- `get24hTicker(symbol)`, same shape as `getOrderbook`. -/
def get24hTicker {ε : Type} (st : ManagerState) (op : ℕ → Except ε Ticker24h)
    (rnd : ℕ → ℚ) (symbol : String) (now : ℤ) : CallResult Ticker24h :=
  if st.fallbackToMock then
    ⟨st, MockDataService.generate24hTicker rnd symbol now, .mock, [], 0⟩
  else
    let source := st.currentSource
    let r := retryWithExponentialBackoff st op source now
    match r.outcome with
    | .ok ticker => ⟨r.state, ticker, source, r.delays, r.attempts⟩
    | .error _ =>
      ⟨r.state, MockDataService.generate24hTicker rnd symbol now, .mock,
       r.delays, r.attempts⟩

/-- `getKlines(symbol, interval, limit)`, same shape as `getOrderbook`. -/
def getKlines {ε : Type} (st : ManagerState) (op : ℕ → Except ε (List Kline))
    (rnd : ℕ → ℚ) (symbol : String) (interval : String) (limit : ℕ)
    (now : ℤ) : CallResult (List Kline) :=
  if st.fallbackToMock then
    ⟨st, MockDataService.generateKlines rnd symbol interval limit now, .mock, [], 0⟩
  else
    let source := st.currentSource
    let r := retryWithExponentialBackoff st op source now
    match r.outcome with
    | .ok klines => ⟨r.state, klines, source, r.delays, r.attempts⟩
    | .error _ =>
      ⟨r.state, MockDataService.generateKlines rnd symbol interval limit now, .mock,
       r.delays, r.attempts⟩

/-- `getCurrentSource()`. -/
def getCurrentSource (st : ManagerState) : APISource := st.currentSource

/-- `getIsMockMode()`. -/
def getIsMockMode (st : ManagerState) : Bool := st.fallbackToMock

/-- `switchToAPI(source)`: set the current source if it is a recognized
(preferred-order) source, reporting success as a boolean. -/
def switchToAPI (st : ManagerState) (source : APISource) : ManagerState × Bool :=
  if source ∈ st.preferredOrder then ({ st with currentSource := source }, true)
  else (st, false)

/-- `forceSwitch(source)`: set the current source unconditionally and reset
the mock-fallback latch. -/
def forceSwitch (st : ManagerState) (source : APISource) : ManagerState :=
  { st with currentSource := source, fallbackToMock := false }

/-- `enableMockMode()`. -/
def enableMockMode (st : ManagerState) : ManagerState :=
  { st with fallbackToMock := true }

/-- `disableMockMode()`. -/
def disableMockMode (st : ManagerState) : ManagerState :=
  { st with fallbackToMock := false }

end APIManagerService

namespace APIManagerService

theorem checkAndEnableMockFallback_apiHealth (st : ManagerState) :
    (checkAndEnableMockFallback st).apiHealth = st.apiHealth := by
  simp only [checkAndEnableMockFallback]
  split <;> rfl

theorem checkAndEnableMockFallback_retryConfig (st : ManagerState) :
    (checkAndEnableMockFallback st).retryConfig = st.retryConfig := by
  simp only [checkAndEnableMockFallback]
  split <;> rfl

theorem checkAndEnableMockFallback_currentSource (st : ManagerState) :
    (checkAndEnableMockFallback st).currentSource = st.currentSource := by
  simp only [checkAndEnableMockFallback]
  split <;> rfl

theorem updateHealth_retryConfig (st : ManagerState) (source : APISource)
    (b : Bool) (rt : Option ℤ) (now : ℤ) :
    (updateHealth st source b rt now).retryConfig = st.retryConfig := by
  unfold updateHealth
  split
  · rfl
  · dsimp only
    split
    · rw [checkAndEnableMockFallback_retryConfig]
    · rfl

theorem updateHealth_currentSource (st : ManagerState) (source : APISource)
    (b : Bool) (rt : Option ℤ) (now : ℤ) :
    (updateHealth st source b rt now).currentSource = st.currentSource := by
  unfold updateHealth
  split
  · rfl
  · dsimp only
    split
    · rw [checkAndEnableMockFallback_currentSource]
    · rfl

theorem updateHealth_apiHealth_of_some {st : ManagerState} {source : APISource}
    {h : APIHealth} (b : Bool) (rt : Option ℤ) (now : ℤ)
    (hget : assocGet st.apiHealth source = some h) :
    (updateHealth st source b rt now).apiHealth
      = assocSet st.apiHealth source (updatedRecord h b rt now) := by
  unfold updateHealth
  rw [hget]
  dsimp only
  split
  · rw [checkAndEnableMockFallback_apiHealth]
  · rfl

theorem assocGet_updateHealth_self {st : ManagerState} {source : APISource}
    {h : APIHealth} (b : Bool) (rt : Option ℤ) (now : ℤ)
    (hget : assocGet st.apiHealth source = some h) :
    assocGet (updateHealth st source b rt now).apiHealth source
      = some (updatedRecord h b rt now) := by
  rw [updateHealth_apiHealth_of_some b rt now hget, assocGet_assocSet_self]

theorem consecutiveFailures_updatedRecord_false (h : APIHealth) (rt : Option ℤ)
    (now : ℤ) :
    (updatedRecord h false rt now).consecutiveFailures = h.consecutiveFailures + 1 := by
  simp [updatedRecord]

theorem retryGo_zero {ε α : Type} (op : ℕ → Except ε α) (source : APISource)
    (now : ℤ) (st : ManagerState) (attempt : ℕ) :
    retryGo op source now st 0 attempt = ⟨st, [], 0, .error .maxRetriesExceeded⟩ := rfl

theorem retryGo_succ_ok {ε α : Type} {op : ℕ → Except ε α} (source : APISource)
    (now : ℤ) (st : ManagerState) (fuel attempt : ℕ) {v : α}
    (hok : op attempt = Except.ok v) :
    retryGo op source now st (fuel + 1) attempt
      = ⟨updateHealth st source true none now, [], 1, .ok v⟩ := by
  simp [retryGo, hok]

theorem retryGo_succ_err_last {ε α : Type} {op : ℕ → Except ε α} (source : APISource)
    (now : ℤ) (st : ManagerState) (attempt : ℕ) {e : ε}
    (he : op attempt = Except.error e) :
    retryGo op source now st (0 + 1) attempt
      = ⟨updateHealth st source false none now, [], 1, .error (.op e)⟩ := by
  simp [retryGo, he]

theorem retryGo_succ_err_cont {ε α : Type} {op : ℕ → Except ε α} (source : APISource)
    (now : ℤ) (st : ManagerState) (fuel attempt : ℕ) {e : ε}
    (he : op attempt = Except.error e) (hf : fuel ≠ 0) :
    retryGo op source now st (fuel + 1) attempt
      = ⟨(retryGo op source now (updateHealth st source false none now) fuel (attempt + 1)).state,
         min ((updateHealth st source false none now).retryConfig.baseDelay * 2 ^ attempt)
             (updateHealth st source false none now).retryConfig.maxDelay
           :: (retryGo op source now (updateHealth st source false none now) fuel (attempt + 1)).delays,
         (retryGo op source now (updateHealth st source false none now) fuel (attempt + 1)).attempts + 1,
         (retryGo op source now (updateHealth st source false none now) fuel (attempt + 1)).outcome⟩ := by
  simp [retryGo, he, hf]

/-- Core behaviour of the retry loop under an operation that fails on every
attempt: the loop ends in an error and the source's consecutive-failure
count grows by exactly the number of attempts made (= `fuel`). -/
theorem retryGo_allFail {ε α : Type} (op : ℕ → Except ε α) (source : APISource)
    (now : ℤ) (hop : ∀ i, ∃ e, op i = Except.error e) :
    ∀ (fuel attempt : ℕ) (st : ManagerState) (h : APIHealth),
      assocGet st.apiHealth source = some h →
      (∃ e, (retryGo op source now st fuel attempt).outcome = Except.error e) ∧
      (assocGet (retryGo op source now st fuel attempt).state.apiHealth source).map
          APIHealth.consecutiveFailures = some (h.consecutiveFailures + fuel) := by
  intro fuel
  induction fuel with
  | zero =>
    intro attempt st h hget
    rw [retryGo_zero]
    exact ⟨⟨.maxRetriesExceeded, rfl⟩, by simp [hget]⟩
  | succ fuel ih =>
    intro attempt st h hget
    obtain ⟨e, he⟩ := hop attempt
    have hget1 := assocGet_updateHealth_self false none now hget
    by_cases hf : fuel = 0
    · subst hf
      rw [retryGo_succ_err_last source now st attempt he]
      refine ⟨⟨.op e, rfl⟩, ?_⟩
      rw [hget1]
      simp [consecutiveFailures_updatedRecord_false]
    · rw [retryGo_succ_err_cont source now st fuel attempt he hf]
      have hr := ih (attempt + 1) (updateHealth st source false none now)
        (updatedRecord h false none now) hget1
      rw [consecutiveFailures_updatedRecord_false] at hr
      obtain ⟨⟨e', he'⟩, hcf⟩ := hr
      refine ⟨⟨e', he'⟩, ?_⟩
      rw [hcf]
      congr 1
      omega

/-- Core behaviour of the retry loop under an operation that fails exactly
`k` times and then succeeds: the loop returns the successful value, awaits
exactly the first `k` exponential-backoff delays, and makes `k + 1`
attempts. -/
theorem retryGo_failThenOk {ε α : Type} (op : ℕ → Except ε α) (source : APISource)
    (now : ℤ) (v : α) (cfg : RetryConfig) :
    ∀ (k fuel attempt : ℕ) (st : ManagerState),
      st.retryConfig = cfg →
      k < fuel →
      (∀ i, i < k → ∃ e, op (attempt + i) = Except.error e) →
      op (attempt + k) = Except.ok v →
      (retryGo op source now st fuel attempt).outcome = Except.ok v ∧
      (retryGo op source now st fuel attempt).delays
        = (List.range k).map (fun i => min (cfg.baseDelay * 2 ^ (attempt + i)) cfg.maxDelay) ∧
      (retryGo op source now st fuel attempt).attempts = k + 1 := by
  intro k
  induction k with
  | zero =>
    intro fuel attempt st hcfg hk hfail hok
    obtain ⟨fuel, rfl⟩ : ∃ f, fuel = f + 1 := ⟨fuel - 1, by omega⟩
    rw [Nat.add_zero] at hok
    rw [retryGo_succ_ok source now st fuel attempt hok]
    exact ⟨rfl, by simp, rfl⟩
  | succ k ih =>
    intro fuel attempt st hcfg hk hfail hok
    obtain ⟨fuel, rfl⟩ : ∃ f, fuel = f + 1 := ⟨fuel - 1, by omega⟩
    obtain ⟨e, he⟩ := hfail 0 (by omega)
    rw [Nat.add_zero] at he
    have hf : fuel ≠ 0 := by omega
    have hcfg1 : (updateHealth st source false none now).retryConfig = cfg := by
      rw [updateHealth_retryConfig, hcfg]
    have hfail1 : ∀ i, i < k → ∃ e, op (attempt + 1 + i) = Except.error e := by
      intro i hi
      have hx := hfail (i + 1) (by omega)
      rwa [show attempt + (i + 1) = attempt + 1 + i by omega] at hx
    have hok1 : op (attempt + 1 + k) = Except.ok v := by
      rwa [show attempt + (k + 1) = attempt + 1 + k by omega] at hok
    obtain ⟨ho, hd, ha⟩ := ih fuel (attempt + 1) (updateHealth st source false none now)
      hcfg1 (by omega) hfail1 hok1
    rw [retryGo_succ_err_cont source now st fuel attempt he hf]
    refine ⟨ho, ?_, by rw [ha]⟩
    have hfun : ((fun i => min (cfg.baseDelay * 2 ^ (attempt + i)) cfg.maxDelay) ∘ Nat.succ)
        = fun i => min (cfg.baseDelay * 2 ^ (attempt + 1 + i)) cfg.maxDelay := by
      funext i
      simp only [Function.comp_apply]
      rw [show attempt + Nat.succ i = attempt + 1 + i by omega]
    rw [hcfg1, hd, List.range_succ_eq_map, List.map_cons, List.map_map, hfun]
    simp

end APIManagerService

namespace APIManagerService

theorem retryWEB_allFail {ε α : Type} (st : ManagerState) (op : ℕ → Except ε α)
    (now : ℤ) (h : APIHealth)
    (hget : assocGet st.apiHealth st.currentSource = some h)
    (hop : ∀ i, ∃ e, op i = Except.error e) :
    (∃ e, (retryWithExponentialBackoff st op st.currentSource now).outcome
        = Except.error e) ∧
    (assocGet (retryWithExponentialBackoff st op st.currentSource now).state.apiHealth
        st.currentSource).map APIHealth.consecutiveFailures
      = some (h.consecutiveFailures + st.retryConfig.maxRetries) := by
  simp only [retryWithExponentialBackoff, hget]
  exact retryGo_allFail op st.currentSource now hop st.retryConfig.maxRetries 0 st h hget

theorem retryWEB_failThenOk {ε α : Type} (st : ManagerState) (op : ℕ → Except ε α)
    (now : ℤ) (h : APIHealth) (v : α) (k : ℕ)
    (hget : assocGet st.apiHealth st.currentSource = some h)
    (hk : k < st.retryConfig.maxRetries)
    (hfail : ∀ i, i < k → ∃ e, op i = Except.error e)
    (hok : op k = Except.ok v) :
    (retryWithExponentialBackoff st op st.currentSource now).outcome = Except.ok v ∧
    (retryWithExponentialBackoff st op st.currentSource now).delays
      = (List.range k).map
          (fun i => min (st.retryConfig.baseDelay * 2 ^ i) st.retryConfig.maxDelay) ∧
    (retryWithExponentialBackoff st op st.currentSource now).attempts = k + 1 := by
  simp only [retryWithExponentialBackoff, hget]
  have hr := retryGo_failThenOk op st.currentSource now v st.retryConfig k
    st.retryConfig.maxRetries 0 st rfl hk
    (by intro i hi; simpa using hfail i hi) (by simpa using hok)
  simpa using hr

end APIManagerService

/-- C1: for every data operation (`getOrderbook`, `get24hTicker`,
`getKlines`) and every symbol, if the selected adapter's operation throws on
every one of the `maxRetries` attempts, the aggregator call still returns a
(schema-shaped) result tagged `source = 'mock'` instead of rethrowing, and —
starting from a health record with `consecutiveFailures = 0` — the current
source's record afterwards shows `consecutiveFailures = maxRetries`. -/
theorem spec_C1 {ε₁ ε₂ ε₃ : Type} (st : ManagerState) (h : APIHealth)
    (rnd : ℕ → ℚ) (symbol interval : String) (limit : ℕ) (now : ℤ)
    (obOp : ℕ → Except ε₁ Orderbook) (tkOp : ℕ → Except ε₂ Ticker24h)
    (klOp : ℕ → Except ε₃ (List Kline))
    (hmock : st.fallbackToMock = false)
    (hget : assocGet st.apiHealth st.currentSource = some h)
    (hcf : h.consecutiveFailures = 0)
    (hob : ∀ i, ∃ e, obOp i = Except.error e)
    (htk : ∀ i, ∃ e, tkOp i = Except.error e)
    (hkl : ∀ i, ∃ e, klOp i = Except.error e) :
    ((APIManagerService.getOrderbook st obOp rnd symbol now).source = APISource.mock ∧
      (assocGet (APIManagerService.getOrderbook st obOp rnd symbol now).state.apiHealth
          st.currentSource).map APIHealth.consecutiveFailures
        = some st.retryConfig.maxRetries) ∧
    ((APIManagerService.get24hTicker st tkOp rnd symbol now).source = APISource.mock ∧
      (assocGet (APIManagerService.get24hTicker st tkOp rnd symbol now).state.apiHealth
          st.currentSource).map APIHealth.consecutiveFailures
        = some st.retryConfig.maxRetries) ∧
    ((APIManagerService.getKlines st klOp rnd symbol interval limit now).source
        = APISource.mock ∧
      (assocGet (APIManagerService.getKlines st klOp rnd symbol interval limit now).state.apiHealth
          st.currentSource).map APIHealth.consecutiveFailures
        = some st.retryConfig.maxRetries) := by
  refine ⟨?_, ?_, ?_⟩
  · obtain ⟨⟨e, he⟩, hcf'⟩ := APIManagerService.retryWEB_allFail st obOp now h hget hob
    rw [hcf, Nat.zero_add] at hcf'
    simp only [APIManagerService.getOrderbook, hmock, Bool.false_eq_true, if_false]
    rw [he]
    exact ⟨rfl, hcf'⟩
  · obtain ⟨⟨e, he⟩, hcf'⟩ := APIManagerService.retryWEB_allFail st tkOp now h hget htk
    rw [hcf, Nat.zero_add] at hcf'
    simp only [APIManagerService.get24hTicker, hmock, Bool.false_eq_true, if_false]
    rw [he]
    exact ⟨rfl, hcf'⟩
  · obtain ⟨⟨e, he⟩, hcf'⟩ := APIManagerService.retryWEB_allFail st klOp now h hget hkl
    rw [hcf, Nat.zero_add] at hcf'
    simp only [APIManagerService.getKlines, hmock, Bool.false_eq_true, if_false]
    rw [he]
    exact ⟨rfl, hcf'⟩

/-- Adapter operations that throw on every attempt, used as witnesses. -/
def wFailObOp : ℕ → Except ℕ Orderbook := fun _ => Except.error 0

/-- See `wFailObOp`. -/
def wFailTkOp : ℕ → Except ℕ Ticker24h := fun _ => Except.error 0

/-- See `wFailObOp`. -/
def wFailKlOp : ℕ → Except ℕ (List Kline) := fun _ => Except.error 0

/-- Witness for C1: a fresh manager whose current (coinbase) adapter always
throws serves mock-tagged data and records 3 consecutive failures. -/
theorem spec_C1_witness :
    (APIManagerService.getOrderbook APIManagerService.initialState wFailObOp
        (fun _ => 0) "BTCUSDT" 0).source = APISource.mock ∧
    (assocGet (APIManagerService.getOrderbook APIManagerService.initialState wFailObOp
        (fun _ => 0) "BTCUSDT" 0).state.apiHealth APISource.coinbase).map
        APIHealth.consecutiveFailures = some 3 := by
  have H := spec_C1 APIManagerService.initialState
    (APIManagerService.initialHealth .coinbase) (fun _ => 0) "BTCUSDT" "1day" 30 0
    wFailObOp wFailTkOp wFailKlOp rfl rfl rfl
    (fun _ => ⟨0, rfl⟩) (fun _ => ⟨0, rfl⟩) (fun _ => ⟨0, rfl⟩)
  exact ⟨H.1.1, H.1.2⟩

/-- C2: for every data operation, if the adapter's operation throws on
exactly the first `k` attempts (`k < maxRetries`) and succeeds on attempt
`k + 1`, the aggregator returns that successful result tagged with the real
source (not `'mock'`), and the backoff delays awaited before the success are
exactly `min(baseDelay * 2^i, maxDelay)` for `i = 0 .. k-1`; the default
configuration is `baseDelay = 1000` ms, `maxDelay = 10000` ms (and
`maxRetries = 3`). -/
theorem spec_C2 {ε₁ ε₂ ε₃ : Type} (st : ManagerState) (h : APIHealth)
    (rnd : ℕ → ℚ) (symbol interval : String) (limit : ℕ) (now : ℤ)
    (k₁ k₂ k₃ : ℕ)
    (obOp : ℕ → Except ε₁ Orderbook) (tkOp : ℕ → Except ε₂ Ticker24h)
    (klOp : ℕ → Except ε₃ (List Kline))
    (ob : Orderbook) (tk : Ticker24h) (kl : List Kline)
    (hmock : st.fallbackToMock = false)
    (hget : assocGet st.apiHealth st.currentSource = some h)
    (hsrc : st.currentSource ≠ APISource.mock)
    (hk₁ : k₁ < st.retryConfig.maxRetries)
    (hk₂ : k₂ < st.retryConfig.maxRetries)
    (hk₃ : k₃ < st.retryConfig.maxRetries)
    (hob₁ : ∀ i, i < k₁ → ∃ e, obOp i = Except.error e)
    (hob₂ : obOp k₁ = Except.ok ob)
    (htk₁ : ∀ i, i < k₂ → ∃ e, tkOp i = Except.error e)
    (htk₂ : tkOp k₂ = Except.ok tk)
    (hkl₁ : ∀ i, i < k₃ → ∃ e, klOp i = Except.error e)
    (hkl₂ : klOp k₃ = Except.ok kl) :
    APIManagerService.initialState.retryConfig
      = { maxRetries := 3, baseDelay := 1000, maxDelay := 10000 } ∧
    ((APIManagerService.getOrderbook st obOp rnd symbol now).data = ob ∧
      (APIManagerService.getOrderbook st obOp rnd symbol now).source = st.currentSource ∧
      (APIManagerService.getOrderbook st obOp rnd symbol now).source ≠ APISource.mock ∧
      (APIManagerService.getOrderbook st obOp rnd symbol now).delays
        = (List.range k₁).map
            (fun i => min (st.retryConfig.baseDelay * 2 ^ i) st.retryConfig.maxDelay)) ∧
    ((APIManagerService.get24hTicker st tkOp rnd symbol now).data = tk ∧
      (APIManagerService.get24hTicker st tkOp rnd symbol now).source = st.currentSource ∧
      (APIManagerService.get24hTicker st tkOp rnd symbol now).source ≠ APISource.mock ∧
      (APIManagerService.get24hTicker st tkOp rnd symbol now).delays
        = (List.range k₂).map
            (fun i => min (st.retryConfig.baseDelay * 2 ^ i) st.retryConfig.maxDelay)) ∧
    ((APIManagerService.getKlines st klOp rnd symbol interval limit now).data = kl ∧
      (APIManagerService.getKlines st klOp rnd symbol interval limit now).source
        = st.currentSource ∧
      (APIManagerService.getKlines st klOp rnd symbol interval limit now).source
        ≠ APISource.mock ∧
      (APIManagerService.getKlines st klOp rnd symbol interval limit now).delays
        = (List.range k₃).map
            (fun i => min (st.retryConfig.baseDelay * 2 ^ i) st.retryConfig.maxDelay)) := by
  refine ⟨rfl, ?_, ?_, ?_⟩
  · obtain ⟨ho, hd, _⟩ :=
      APIManagerService.retryWEB_failThenOk st obOp now h ob k₁ hget hk₁ hob₁ hob₂
    simp only [APIManagerService.getOrderbook, hmock, Bool.false_eq_true, if_false]
    rw [ho]
    exact ⟨rfl, rfl, hsrc, hd⟩
  · obtain ⟨ho, hd, _⟩ :=
      APIManagerService.retryWEB_failThenOk st tkOp now h tk k₂ hget hk₂ htk₁ htk₂
    simp only [APIManagerService.get24hTicker, hmock, Bool.false_eq_true, if_false]
    rw [ho]
    exact ⟨rfl, rfl, hsrc, hd⟩
  · obtain ⟨ho, hd, _⟩ :=
      APIManagerService.retryWEB_failThenOk st klOp now h kl k₃ hget hk₃ hkl₁ hkl₂
    simp only [APIManagerService.getKlines, hmock, Bool.false_eq_true, if_false]
    rw [ho]
    exact ⟨rfl, rfl, hsrc, hd⟩

/-- A sample normalized orderbook used in witnesses. -/
def wOrderbook : Orderbook :=
  { symbol := "BTCUSDT", bids := [], asks := [], lastUpdateId := 1 }

/-- An adapter orderbook operation that throws once, then succeeds. -/
def wOnceObOp : ℕ → Except ℕ Orderbook :=
  fun i => if i = 0 then Except.error 0 else Except.ok wOrderbook

/-- An adapter ticker operation that always succeeds. -/
def wOkTkOp : ℕ → Except ℕ Ticker24h :=
  fun _ => Except.ok (MockDataService.generate24hTicker (fun _ => 0) "BTCUSDT" 0)

/-- An adapter klines operation that always succeeds. -/
def wOkKlOp : ℕ → Except ℕ (List Kline) := fun _ => Except.ok []

/-- Witness for C2: one failure then success on a fresh manager waits
exactly `min(1000 * 2^0, 10000) = 1000` ms and returns the coinbase-tagged
result. -/
theorem spec_C2_witness :
    (APIManagerService.getOrderbook APIManagerService.initialState wOnceObOp
        (fun _ => 0) "BTCUSDT" 0).data = wOrderbook ∧
    (APIManagerService.getOrderbook APIManagerService.initialState wOnceObOp
        (fun _ => 0) "BTCUSDT" 0).source = APISource.coinbase ∧
    (APIManagerService.getOrderbook APIManagerService.initialState wOnceObOp
        (fun _ => 0) "BTCUSDT" 0).delays = [1000] := by
  have H := spec_C2 APIManagerService.initialState
    (APIManagerService.initialHealth .coinbase) (fun _ => 0) "BTCUSDT" "1day" 30 0
    1 0 0 wOnceObOp wOkTkOp wOkKlOp
    wOrderbook (MockDataService.generate24hTicker (fun _ => 0) "BTCUSDT" 0) []
    rfl rfl (by decide) (by decide) (by decide) (by decide)
    (fun i hi => ⟨0, by rw [show i = 0 by omega]; rfl⟩) rfl
    (fun i hi => absurd hi (by omega)) rfl
    (fun i hi => absurd hi (by omega)) rfl
  exact ⟨H.2.1.1, H.2.1.2.1, H.2.1.2.2.2.trans (by decide)⟩

namespace APIManagerService

theorem checkAndEnableMockFallback_fallback_true (st : ManagerState)
    (hall : ∀ p ∈ st.apiHealth, st.retryConfig.maxRetries ≤ p.2.consecutiveFailures) :
    (checkAndEnableMockFallback st).fallbackToMock = true := by
  have hAll : st.apiHealth.all
      (fun p => st.retryConfig.maxRetries ≤ p.2.consecutiveFailures) = true := by
    rw [List.all_eq_true]
    intro p hp
    exact decide_eq_true (hall p hp)
  simp only [checkAndEnableMockFallback, hAll]
  by_cases hf : st.fallbackToMock <;> simp [hf]

/-- Any health update that leaves every tracked source at or beyond
`maxRetries` consecutive failures latches global mock-fallback mode. -/
theorem updateHealth_fallback_true (st : ManagerState) (source : APISource)
    (h : APIHealth) (b : Bool) (rt : Option ℤ) (now : ℤ)
    (hget : assocGet st.apiHealth source = some h)
    (hall : ∀ p ∈ (updateHealth st source b rt now).apiHealth,
      st.retryConfig.maxRetries ≤ p.2.consecutiveFailures) :
    (updateHealth st source b rt now).fallbackToMock = true := by
  have hApi : (updateHealth st source b rt now).apiHealth
      = assocSet st.apiHealth source (updatedRecord h b rt now) :=
    updateHealth_apiHealth_of_some b rt now hget
  have hmem : (source, updatedRecord h b rt now)
      ∈ (updateHealth st source b rt now).apiHealth := by
    rw [hApi]
    exact mem_of_assocGet (assocGet_assocSet_self _ _ _)
  have hcond : st.retryConfig.maxRetries ≤ (updatedRecord h b rt now).consecutiveFailures :=
    hall _ hmem
  rw [updateHealth, hget]
  dsimp only
  rw [if_pos hcond]
  apply checkAndEnableMockFallback_fallback_true
  intro p hp
  apply hall
  rw [hApi]
  exact hp

end APIManagerService

/-- C3: whenever a health update leaves every tracked source with
`consecutiveFailures ≥ maxRetries`, global mock-fallback mode becomes
enabled (`getIsMockMode()` returns true); and while it is enabled, every
data call returns `source = 'mock'` immediately, with zero adapter
invocations and no awaited backoff delay. -/
theorem spec_C3 {ε₁ ε₂ ε₃ : Type} (st : ManagerState) (source : APISource)
    (h : APIHealth) (b : Bool) (rt : Option ℤ) (now : ℤ)
    (hget : assocGet st.apiHealth source = some h)
    (hall : ∀ p ∈ (APIManagerService.updateHealth st source b rt now).apiHealth,
      st.retryConfig.maxRetries ≤ p.2.consecutiveFailures) :
    APIManagerService.getIsMockMode (APIManagerService.updateHealth st source b rt now)
      = true ∧
    (∀ (st' : ManagerState) (rnd : ℕ → ℚ) (symbol interval : String) (limit : ℕ)
        (now' : ℤ) (obOp : ℕ → Except ε₁ Orderbook) (tkOp : ℕ → Except ε₂ Ticker24h)
        (klOp : ℕ → Except ε₃ (List Kline)),
      APIManagerService.getIsMockMode st' = true →
      ((APIManagerService.getOrderbook st' obOp rnd symbol now').source = APISource.mock ∧
        (APIManagerService.getOrderbook st' obOp rnd symbol now').attempts = 0 ∧
        (APIManagerService.getOrderbook st' obOp rnd symbol now').delays = []) ∧
      ((APIManagerService.get24hTicker st' tkOp rnd symbol now').source = APISource.mock ∧
        (APIManagerService.get24hTicker st' tkOp rnd symbol now').attempts = 0 ∧
        (APIManagerService.get24hTicker st' tkOp rnd symbol now').delays = []) ∧
      ((APIManagerService.getKlines st' klOp rnd symbol interval limit now').source
          = APISource.mock ∧
        (APIManagerService.getKlines st' klOp rnd symbol interval limit now').attempts = 0 ∧
        (APIManagerService.getKlines st' klOp rnd symbol interval limit now').delays = [])) := by
  constructor
  · exact APIManagerService.updateHealth_fallback_true st source h b rt now hget hall
  · intro st' rnd symbol interval limit now' obOp tkOp klOp hmock
    rw [APIManagerService.getIsMockMode] at hmock
    refine ⟨?_, ?_, ?_⟩
    · simp [APIManagerService.getOrderbook, hmock]
    · simp [APIManagerService.get24hTicker, hmock]
    · simp [APIManagerService.getKlines, hmock]

/-- A state in which every tracked source has already failed three times,
reached by nine failing health updates from the initial state. -/
def wAllFailedState : ManagerState :=
  let u := fun (st : ManagerState) (s : APISource) => APIManagerService.updateHealth st s false none 1
  u (u (u (u (u (u (u (u APIManagerService.initialState .coinbase) .coinbase) .coinbase)
      .okx) .okx) .okx) .kucoin) .kucoin

/-- Witness for C3: the ninth failing update (third for kucoin) latches mock
mode, and a call in mock mode is mock-tagged with zero adapter attempts. -/
theorem spec_C3_witness :
    APIManagerService.getIsMockMode
      (APIManagerService.updateHealth wAllFailedState .kucoin false none 1) = true ∧
    (APIManagerService.getOrderbook
        (APIManagerService.updateHealth wAllFailedState .kucoin false none 1)
        wFailObOp (fun _ => 0) "BTCUSDT" 0).source = APISource.mock ∧
    (APIManagerService.getOrderbook
        (APIManagerService.updateHealth wAllFailedState .kucoin false none 1)
        wFailObOp (fun _ => 0) "BTCUSDT" 0).attempts = 0 := by
  have H := @spec_C3 ℕ ℕ ℕ wAllFailedState .kucoin
    (APIManagerService.updatedRecord
      (APIManagerService.updatedRecord (APIManagerService.initialHealth .kucoin)
        false none 1) false none 1)
    false none 1 (by decide) (by decide)
  have H2 := H.2 (APIManagerService.updateHealth wAllFailedState .kucoin false none 1)
    (fun _ => 0) "BTCUSDT" "1day" 30 0 wFailObOp wOkTkOp wFailKlOp H.1
  exact ⟨H.1, H2.1.1, H2.1.2.1⟩

/-- Counterexample to C4 as stated: with global mock-fallback active,
`switchToAPI('okx')` succeeds (returns true) but does NOT reset the latch —
`getIsMockMode()` is still true afterwards (only `forceSwitch` clears it). -/
theorem spec_C4_counterexample :
    (APIManagerService.switchToAPI
        (APIManagerService.enableMockMode APIManagerService.initialState) .okx).2 = true ∧
    APIManagerService.getIsMockMode
      (APIManagerService.switchToAPI
        (APIManagerService.enableMockMode APIManagerService.initialState) .okx).1
      = true := by
  decide

/-- C4 (amended): `forceSwitch(source)` sets the current source and resets
the mock-fallback latch; `switchToAPI(source)` on a recognized source sets
the current source and reports success, but leaves the mock-fallback latch
unchanged. -/
theorem spec_C4 (st : ManagerState) (source : APISource)
    (hmem : source ∈ st.preferredOrder) :
    APIManagerService.getIsMockMode (APIManagerService.forceSwitch st source) = false ∧
    APIManagerService.getCurrentSource (APIManagerService.forceSwitch st source) = source ∧
    (APIManagerService.switchToAPI st source).2 = true ∧
    APIManagerService.getCurrentSource (APIManagerService.switchToAPI st source).1 = source ∧
    APIManagerService.getIsMockMode (APIManagerService.switchToAPI st source).1
      = APIManagerService.getIsMockMode st := by
  refine ⟨rfl, rfl, ?_, ?_, ?_⟩ <;>
    simp [APIManagerService.switchToAPI, APIManagerService.getCurrentSource,
      APIManagerService.getIsMockMode, hmem]

/-- Witness for C4 (amended): `forceSwitch('okx')` while mock mode is active
clears the latch and selects okx; `switchToAPI('okx')` keeps the latch. -/
theorem spec_C4_witness :
    APIManagerService.getIsMockMode
      (APIManagerService.forceSwitch
        (APIManagerService.enableMockMode APIManagerService.initialState) .okx) = false ∧
    APIManagerService.getCurrentSource
      (APIManagerService.forceSwitch
        (APIManagerService.enableMockMode APIManagerService.initialState) .okx)
      = APISource.okx ∧
    APIManagerService.getIsMockMode
      (APIManagerService.switchToAPI
        (APIManagerService.enableMockMode APIManagerService.initialState) .okx).1
      = APIManagerService.getIsMockMode
          (APIManagerService.enableMockMode APIManagerService.initialState) := by
  have H := spec_C4 (APIManagerService.enableMockMode APIManagerService.initialState)
    .okx (by decide)
  exact ⟨H.1, H.2.1, H.2.2.2.2⟩

/-- A state in which coinbase has accumulated two errors, reached by two
failing health updates from the initial state. -/
def wC6State : ManagerState :=
  APIManagerService.updateHealth
    (APIManagerService.updateHealth APIManagerService.initialState .coinbase false none 1)
    .coinbase false none 2

/-- Counterexample to C6 as stated: a successful request does NOT leave
`errorCount` unchanged — `updateHealth(source, true)` resets it from 2 to 0
(`errorCount = isHealthy ? 0 : errorCount + 1`). -/
theorem spec_C6_counterexample :
    (assocGet wC6State.apiHealth .coinbase).map APIHealth.errorCount = some 2 ∧
    (assocGet (APIManagerService.updateHealth wC6State .coinbase true (some 7) 3).apiHealth
        .coinbase).map APIHealth.errorCount = some 0 := by
  decide

/-- C6 (amended): a successful request marks the source healthy and resets
BOTH `consecutiveFailures` and `errorCount` to 0 (recording the check time
and response time), leaving every other source's record unchanged. -/
theorem spec_C6 (st : ManagerState) (source other : APISource) (h : APIHealth)
    (rt : Option ℤ) (now : ℤ)
    (hget : assocGet st.apiHealth source = some h)
    (hother : other ≠ source) :
    assocGet (APIManagerService.updateHealth st source true rt now).apiHealth source
      = some { source := h.source, isHealthy := true, lastChecked := now,
               responseTime := rt, errorCount := 0, consecutiveFailures := 0 } ∧
    assocGet (APIManagerService.updateHealth st source true rt now).apiHealth other
      = assocGet st.apiHealth other := by
  constructor
  · rw [APIManagerService.assocGet_updateHealth_self true rt now hget]
    simp [APIManagerService.updatedRecord]
  · rw [APIManagerService.updateHealth_apiHealth_of_some true rt now hget,
      assocGet_assocSet_other _ _ _ _ hother]

/-- Witness for C6 (amended): a successful update of coinbase on the
two-failure state resets its counters and leaves okx untouched. -/
theorem spec_C6_witness :
    assocGet (APIManagerService.updateHealth wC6State .coinbase true (some 7) 3).apiHealth
        .coinbase
      = some { source := .coinbase, isHealthy := true, lastChecked := 3,
               responseTime := some 7, errorCount := 0, consecutiveFailures := 0 } ∧
    assocGet (APIManagerService.updateHealth wC6State .coinbase true (some 7) 3).apiHealth
        .okx
      = assocGet wC6State.apiHealth .okx := by
  have H := spec_C6 wC6State .coinbase .okx
    (APIManagerService.updatedRecord
      (APIManagerService.updatedRecord (APIManagerService.initialHealth .coinbase)
        false none 1) false none 2)
    (some 7) 3 (by decide) (by decide)
  exact ⟨H.1, H.2⟩

/-! ## Exchange adapters (`kucoin-api.ts`, `okx-api.ts`, Coinbase)

Each data operation's `try` block performs a `fetch`, checks `response.ok`,
parses JSON and validates it; any of these failing throws, and the `catch`
block returns the adapter's private synthetic substitute. We model the whole
fetch-parse-validate round trip as a `FetchOutcome`: the `ok` constructor
carries the successfully parsed exchange payload, and the three failure
constructors (network error, non-2xx status, malformed response) all land in
the `catch` branch. -/

/-- Outcome of one `fetch` + parse + validate round trip. -/
inductive FetchOutcome (α : Type) : Type
  | networkError
  | httpError (status : ℕ)
  | malformed
  | ok (payload : α)
deriving DecidableEq

/-- Whether the round trip landed in the `catch` branch. -/
def FetchOutcome.isFailure {α : Type} : FetchOutcome α → Bool
  | .ok _ => false
  | _ => true

/-- KuCoin level-2 orderbook payload (`result.data`), strings pre-parsed. -/
structure KuCoinOrderbook where
  sequence : ℤ
  bids : List (ℚ × ℚ)
  asks : List (ℚ × ℚ)
deriving DecidableEq

/-- KuCoin 24h stats payload (`result.data`). -/
structure KuCoinTicker where
  changePrice : ℚ
  changeRate : ℚ
  averagePrice : ℚ
  last : ℚ
  buy : ℚ
  sell : ℚ
  high : ℚ
  low : ℚ
  vol : ℚ
  volValue : ℚ
deriving DecidableEq

/-- One KuCoin candle `[time, open, close, high, low, volume, turnover]`
(seconds-based time, KuCoin's open-close-high-low field order). -/
structure KuCoinCandle where
  time : ℤ
  open_ : ℚ
  close : ℚ
  high : ℚ
  low : ℚ
  volume : ℚ
  turnover : ℚ
deriving DecidableEq

namespace KuCoinAPIService

/-- The quote currencies tried, in order, by `formatSymbol`. -/
def commonPairs : List String := ["USDT", "BTC", "ETH", "BNB", "USDC"]

/-- `formatSymbol`: `BTCUSDT -> BTC-USDT`; already-dashed symbols pass
through; unknown quotes fall back to splitting off the last 4 characters. -/
def formatSymbol (symbol : String) : String :=
  if symbol.contains '-' then symbol
  else
    match commonPairs.find? (fun quote => symbol.endsWith quote) with
    | some quote => symbol.dropRight quote.length ++ "-" ++ quote
    | none =>
      if symbol.length > 4 then
        symbol.dropRight 4 ++ "-" ++ symbol.drop (symbol.length - 4)
      else symbol

/-- `getMockOrderbook`: 10 fixed-price levels either side of 45000 with
random quantities (draws 0-9 for bids, 10-19 for asks). -/
def getMockOrderbook (rnd : ℕ → ℚ) (symbol : String) (now : ℤ) : Orderbook :=
  let basePrice : ℚ := 45000
  { symbol := symbol,
    bids := (List.range 10).map (fun (i : ℕ) =>
      { price := basePrice - ((i : ℚ) + 1) * 10,
        quantity := roundTo 4 (rnd i * 5 + 1 / 10) }),
    asks := (List.range 10).map (fun (i : ℕ) =>
      { price := basePrice + ((i : ℚ) + 1) * 10,
        quantity := roundTo 4 (rnd (10 + i) * 5 + 1 / 10) }),
    lastUpdateId := now }

/-- `getMock24hTicker` (draw order: price, change, volume, quoteVolume,
count). -/
def getMock24hTicker (rnd : ℕ → ℚ) (symbol : String) (now : ℤ) : Ticker24h :=
  let price : ℚ := 45000 + (rnd 0 - 1 / 2) * 1000
  let change : ℚ := (rnd 1 - 1 / 2) * 5
  { symbol := symbol,
    priceChange := roundTo 2 change,
    priceChangePercent := roundTo 2 (change / price * 100),
    weightedAvgPrice := roundTo 2 price,
    prevClosePrice := roundTo 2 (price - change),
    lastPrice := roundTo 2 price,
    bidPrice := roundTo 2 (price - 5),
    askPrice := roundTo 2 (price + 5),
    openPrice := roundTo 2 (price - change),
    highPrice := roundTo 2 (price + |change| * 2),
    lowPrice := roundTo 2 (price - |change| * 2),
    volume := roundTo 2 (rnd 2 * 10000 + 1000),
    quoteVolume := roundTo 2 (rnd 3 * 500000000 + 100000000),
    openTime := now - 24 * 60 * 60 * 1000,
    closeTime := now,
    count := (⌊rnd 4 * 100000 + 50000⌋).toNat }

/-- One candle of `getMockKlines` (7 draws per index: base price,
volatility, close perturbation, high padding, low padding, volume, trade
count). -/
def getMockKline (rnd : ℕ → ℚ) (now : ℤ) (limit i : ℕ) : Kline :=
  let time : ℤ := now - ((limit : ℤ) - (i : ℤ) - 1) * (24 * 60 * 60 * 1000)
  let basePrice : ℚ := 45000 + (rnd (7 * i) - 1 / 2) * 5000
  let volatility : ℚ := rnd (7 * i + 1) * (5 / 100)
  let openP : ℚ := basePrice
  let closeP : ℚ := openP * (1 + (rnd (7 * i + 2) - 1 / 2) * volatility)
  let highP : ℚ := max openP closeP * (1 + rnd (7 * i + 3) * (2 / 100))
  let lowP : ℚ := min openP closeP * (1 - rnd (7 * i + 4) * (2 / 100))
  let volume : ℚ := rnd (7 * i + 5) * 10000 + 1000
  { openTime := time,
    open_ := roundTo 2 openP,
    high := roundTo 2 highP,
    low := roundTo 2 lowP,
    close := roundTo 2 closeP,
    volume := roundTo 2 volume,
    closeTime := time + 24 * 60 * 60 * 1000 - 1,
    quoteAssetVolume := roundTo 2 (volume * closeP),
    numberOfTrades := (⌊rnd (7 * i + 6) * 10000 + 1000⌋).toNat,
    takerBuyBaseAssetVolume := roundTo 2 (volume * (6 / 10)),
    takerBuyQuoteAssetVolume := roundTo 2 (volume * closeP * (6 / 10)) }

/-- `getMockKlines(limit)`. -/
def getMockKlines (rnd : ℕ → ℚ) (limit : ℕ) (now : ℤ) : List Kline :=
  (List.range limit).map (getMockKline rnd now limit)

/-- `getOrderbook(symbol, limit)`: normalize the level-2 payload, or return
the synthetic substitute on any failure. `limit` is accepted but unused (the
endpoint is the fixed-depth `level2_20`), as in the source. -/
def getOrderbook (rnd : ℕ → ℚ) (symbol : String) (limit : ℕ)
    (outcome : FetchOutcome KuCoinOrderbook) (now : ℤ) : Orderbook :=
  match outcome with
  | .ok data =>
    { symbol := formatSymbol symbol,
      bids := data.bids.map (fun p => { price := p.1, quantity := p.2 }),
      asks := data.asks.map (fun p => { price := p.1, quantity := p.2 }),
      lastUpdateId := data.sequence }
  | _ => getMockOrderbook rnd symbol now

/-- `get24hTicker(symbol)`: transform KuCoin stats to the Binance-shaped
schema, or return the synthetic substitute on any failure. -/
def get24hTicker (rnd : ℕ → ℚ) (symbol : String)
    (outcome : FetchOutcome KuCoinTicker) (now : ℤ) : Ticker24h :=
  match outcome with
  | .ok data =>
    { symbol := formatSymbol symbol,
      priceChange := data.changePrice,
      priceChangePercent := roundTo 2 (data.changeRate * 100),
      weightedAvgPrice := data.averagePrice,
      prevClosePrice := roundTo 2 (data.last - data.changePrice),
      lastPrice := data.last,
      bidPrice := data.buy,
      askPrice := data.sell,
      openPrice := roundTo 2 (data.last - data.changePrice),
      highPrice := data.high,
      lowPrice := data.low,
      volume := data.vol,
      quoteVolume := data.volValue,
      openTime := now - 24 * 60 * 60 * 1000,
      closeTime := now,
      count := 0 }
  | _ => getMock24hTicker rnd symbol now

/-- `getKlines(symbol, interval, limit)`: reverse KuCoin's
reverse-chronological candles and convert seconds to milliseconds, or return
the synthetic substitute on any failure. -/
def getKlines (rnd : ℕ → ℚ) (symbol interval : String) (limit : ℕ)
    (outcome : FetchOutcome (List KuCoinCandle)) (now : ℤ) : List Kline :=
  match outcome with
  | .ok data =>
    data.reverse.map (fun candle =>
      { openTime := candle.time * 1000,
        open_ := candle.open_,
        close := candle.close,
        high := candle.high,
        low := candle.low,
        volume := candle.volume,
        closeTime := (candle.time + 86400) * 1000 - 1,
        quoteAssetVolume := candle.turnover,
        numberOfTrades := 0,
        takerBuyBaseAssetVolume := 0,
        takerBuyQuoteAssetVolume := 0 })
  | _ => getMockKlines rnd limit now

end KuCoinAPIService

/-- OKX orderbook payload (`data.data[0]`). -/
structure OKXOrderbook where
  ts : ℤ
  bids : List (ℚ × ℚ)
  asks : List (ℚ × ℚ)
deriving DecidableEq

/-- OKX ticker payload (`data.data[0]`). -/
structure OKXTicker where
  last : ℚ
  open24h : ℚ
  bidPx : ℚ
  askPx : ℚ
  high24h : ℚ
  low24h : ℚ
  vol24h : ℚ
  volCcy24h : ℚ
  ts : ℤ
deriving DecidableEq

/-- One OKX candle `[ts, open, high, low, close, vol, volCcy]`
(millisecond time). -/
structure OKXCandle where
  ts : ℤ
  open_ : ℚ
  high : ℚ
  low : ℚ
  close : ℚ
  vol : ℚ
  volCcy : ℚ
deriving DecidableEq

namespace OKXAPIService

/-- `formatSymbol`: first-occurrence `replace('USDT', '-USDT')` when the
symbol includes `USDT` (JS `String.replace` with a string pattern replaces
only the first occurrence). -/
def formatSymbol (symbol : String) : String :=
  match symbol.splitOn "USDT" with
  | p0 :: p1 :: rest => p0 ++ "-USDT" ++ String.intercalate "USDT" (p1 :: rest)
  | _ => symbol

/-- `getMockOrderbook`: 20 fixed-price levels either side of 65000 with a
flat spread of 10 (quantity draws 0-19 for bids, 20-39 for asks). -/
def getMockOrderbook (rnd : ℕ → ℚ) (symbol : String) (now : ℤ) : Orderbook :=
  let basePrice : ℚ := 65000
  let spread : ℚ := 10
  { symbol := symbol,
    bids := (List.range 20).map (fun (i : ℕ) =>
      { price := basePrice - spread - (i : ℚ) * 5,
        quantity := roundTo 4 (rnd i * 2) }),
    asks := (List.range 20).map (fun (i : ℕ) =>
      { price := basePrice + spread + (i : ℚ) * 5,
        quantity := roundTo 4 (rnd (20 + i) * 2) }),
    lastUpdateId := now }

/-- `getMock24hTicker` (draw order: last price, open ratio, high padding,
low padding, volume, quoteVolume, count). -/
def getMock24hTicker (rnd : ℕ → ℚ) (symbol : String) (now : ℤ) : Ticker24h :=
  let lastPrice : ℚ := 65000 + rnd 0 * 1000
  let openPrice : ℚ := lastPrice * (98 / 100 + rnd 1 * (4 / 100))
  let high : ℚ := max lastPrice openPrice * (1 + rnd 2 * (2 / 100))
  let low : ℚ := min lastPrice openPrice * (1 - rnd 3 * (2 / 100))
  { symbol := symbol,
    priceChange := roundTo 2 (lastPrice - openPrice),
    priceChangePercent := roundTo 2 ((lastPrice - openPrice) / openPrice * 100),
    weightedAvgPrice := roundTo 2 ((lastPrice + openPrice) / 2),
    prevClosePrice := roundTo 2 openPrice,
    lastPrice := roundTo 2 lastPrice,
    bidPrice := roundTo 2 (lastPrice - 5),
    askPrice := roundTo 2 (lastPrice + 5),
    openPrice := roundTo 2 openPrice,
    highPrice := roundTo 2 high,
    lowPrice := roundTo 2 low,
    volume := roundTo 2 (rnd 4 * 1000),
    quoteVolume := roundTo 2 (rnd 5 * 50000000),
    openTime := now - 24 * 60 * 60 * 1000,
    closeTime := now,
    count := (⌊rnd 6 * 10000⌋).toNat }

/-- The random-walk loop of OKX's `getMockKlines` (5 draws per index:
change, high padding, low padding, volume, trade count; `toString`, so no
decimal rounding). -/
def getMockKlineGo (rnd : ℕ → ℚ) (now dayMs : ℤ) (limit : ℕ) :
    ℕ → ℕ → ℚ → List Kline
  | 0, _, _ => []
  | count + 1, i, currentPrice =>
    let openTime : ℤ := now - ((limit : ℤ) - (i : ℤ)) * dayMs
    let openP : ℚ := currentPrice
    let change : ℚ := (rnd (5 * i) - 1 / 2) * (1 / 10)
    let closeP : ℚ := openP * (1 + change)
    let highP : ℚ := max openP closeP * (1 + rnd (5 * i + 1) * (5 / 100))
    let lowP : ℚ := min openP closeP * (1 - rnd (5 * i + 2) * (5 / 100))
    let volume : ℚ := rnd (5 * i + 3) * 1000
    { openTime := openTime,
      open_ := openP,
      high := highP,
      low := lowP,
      close := closeP,
      volume := volume,
      closeTime := openTime + dayMs,
      quoteAssetVolume := volume * closeP,
      numberOfTrades := (⌊rnd (5 * i + 4) * 1000⌋).toNat,
      takerBuyBaseAssetVolume := volume * (6 / 10),
      takerBuyQuoteAssetVolume := volume * closeP * (6 / 10) }
      :: getMockKlineGo rnd now dayMs limit count (i + 1) closeP

/-- `getMockKlines(symbol, limit)`: random walk starting at 65000. -/
def getMockKlines (rnd : ℕ → ℚ) (symbol : String) (limit : ℕ) (now : ℤ) :
    List Kline :=
  getMockKlineGo rnd now (24 * 60 * 60 * 1000) limit limit 0 65000

/-- `getOrderbook(symbol, limit)`: normalize `data.data[0]`, or return the
synthetic substitute on any failure (including `code !== '0'` /
missing-data responses, which are `malformed` outcomes). -/
def getOrderbook (rnd : ℕ → ℚ) (symbol : String) (limit : ℕ)
    (outcome : FetchOutcome OKXOrderbook) (now : ℤ) : Orderbook :=
  match outcome with
  | .ok orderbook =>
    { symbol := symbol,
      bids := orderbook.bids.map (fun p => { price := p.1, quantity := p.2 }),
      asks := orderbook.asks.map (fun p => { price := p.1, quantity := p.2 }),
      lastUpdateId := orderbook.ts }
  | _ => getMockOrderbook rnd symbol now

/-- `get24hTicker(symbol)`: normalize the OKX ticker (plain `toString`
arithmetic, no decimal rounding), or return the synthetic substitute. -/
def get24hTicker (rnd : ℕ → ℚ) (symbol : String)
    (outcome : FetchOutcome OKXTicker) (now : ℤ) : Ticker24h :=
  match outcome with
  | .ok ticker =>
    { symbol := symbol,
      priceChange := ticker.last - ticker.open24h,
      priceChangePercent := (ticker.last - ticker.open24h) / ticker.open24h * 100,
      weightedAvgPrice := ticker.last,
      prevClosePrice := ticker.open24h,
      lastPrice := ticker.last,
      bidPrice := ticker.bidPx,
      askPrice := ticker.askPx,
      openPrice := ticker.open24h,
      highPrice := ticker.high24h,
      lowPrice := ticker.low24h,
      volume := ticker.vol24h,
      quoteVolume := ticker.volCcy24h,
      openTime := ticker.ts - 24 * 60 * 60 * 1000,
      closeTime := ticker.ts,
      count := 0 }
  | _ => getMock24hTicker rnd symbol now

/-- `getKlines(symbol, interval, limit)`: map then reverse OKX's
reverse-chronological candles, or return the synthetic substitute. -/
def getKlines (rnd : ℕ → ℚ) (symbol interval : String) (limit : ℕ)
    (outcome : FetchOutcome (List OKXCandle)) (now : ℤ) : List Kline :=
  match outcome with
  | .ok data =>
    (data.map (fun candle =>
      ({ openTime := candle.ts,
         open_ := candle.open_,
         high := candle.high,
         low := candle.low,
         close := candle.close,
         volume := candle.vol,
         closeTime := candle.ts + 24 * 60 * 60 * 1000,
         quoteAssetVolume := candle.volCcy,
         numberOfTrades := 0,
         takerBuyBaseAssetVolume := 0,
         takerBuyQuoteAssetVolume := 0 } : Kline))).reverse
  | _ => getMockKlines rnd symbol limit now

end OKXAPIService

namespace CoinbaseAPIService

/-- Modelled from the spec: `coinbase-api.ts` is imported by the API manager
but is not among the provided source files. Per §4.1, on any network error,
malformed-response error or non-2xx status the adapter does not propagate
the error: it returns a synthetically generated substitute of the same
shape (§4.2), and never throws. The `ok` branch returns the normalized
payload; every failure returns the adapter's synthetic orderbook. -/
def getOrderbook (rnd : ℕ → ℚ) (symbol : String) (limit : ℕ)
    (outcome : FetchOutcome Orderbook) (now : ℤ) : Orderbook :=
  match outcome with
  | .ok orderbook => orderbook
  | _ => MockDataService.generateOrderbook rnd symbol now

/-- Modelled from the spec: see `CoinbaseAPIService.getOrderbook`. -/
def get24hTicker (rnd : ℕ → ℚ) (symbol : String)
    (outcome : FetchOutcome Ticker24h) (now : ℤ) : Ticker24h :=
  match outcome with
  | .ok ticker => ticker
  | _ => MockDataService.generate24hTicker rnd symbol now

/-- Modelled from the spec: see `CoinbaseAPIService.getOrderbook`. -/
def getKlines (rnd : ℕ → ℚ) (symbol interval : String) (limit : ℕ)
    (outcome : FetchOutcome (List Kline)) (now : ℤ) : List Kline :=
  match outcome with
  | .ok klines => klines
  | _ => MockDataService.generateKlines rnd symbol interval limit now

end CoinbaseAPIService

/-- C5: for every adapter (Coinbase — modelled from the spec, OKX, KuCoin)
and each of its three data operations, if the underlying fetch fails,
returns a non-2xx status, or yields a malformed response, the operation does
not throw to its caller: being total functions into the shared schema types,
the embedded operations return, on every failure outcome, exactly the
adapter's synthetically generated substitute of the same shape. -/
theorem spec_C5 (rnd : ℕ → ℚ) (symbol interval : String) (limit : ℕ) (now : ℤ) :
    (∀ oc : FetchOutcome KuCoinOrderbook, oc.isFailure = true →
      KuCoinAPIService.getOrderbook rnd symbol limit oc now
        = KuCoinAPIService.getMockOrderbook rnd symbol now) ∧
    (∀ oc : FetchOutcome KuCoinTicker, oc.isFailure = true →
      KuCoinAPIService.get24hTicker rnd symbol oc now
        = KuCoinAPIService.getMock24hTicker rnd symbol now) ∧
    (∀ oc : FetchOutcome (List KuCoinCandle), oc.isFailure = true →
      KuCoinAPIService.getKlines rnd symbol interval limit oc now
        = KuCoinAPIService.getMockKlines rnd limit now) ∧
    (∀ oc : FetchOutcome OKXOrderbook, oc.isFailure = true →
      OKXAPIService.getOrderbook rnd symbol limit oc now
        = OKXAPIService.getMockOrderbook rnd symbol now) ∧
    (∀ oc : FetchOutcome OKXTicker, oc.isFailure = true →
      OKXAPIService.get24hTicker rnd symbol oc now
        = OKXAPIService.getMock24hTicker rnd symbol now) ∧
    (∀ oc : FetchOutcome (List OKXCandle), oc.isFailure = true →
      OKXAPIService.getKlines rnd symbol interval limit oc now
        = OKXAPIService.getMockKlines rnd symbol limit now) ∧
    (∀ oc : FetchOutcome Orderbook, oc.isFailure = true →
      CoinbaseAPIService.getOrderbook rnd symbol limit oc now
        = MockDataService.generateOrderbook rnd symbol now) ∧
    (∀ oc : FetchOutcome Ticker24h, oc.isFailure = true →
      CoinbaseAPIService.get24hTicker rnd symbol oc now
        = MockDataService.generate24hTicker rnd symbol now) ∧
    (∀ oc : FetchOutcome (List Kline), oc.isFailure = true →
      CoinbaseAPIService.getKlines rnd symbol interval limit oc now
        = MockDataService.generateKlines rnd symbol interval limit now) := by
  refine ⟨?_, ?_, ?_, ?_, ?_, ?_, ?_, ?_, ?_⟩ <;>
    · intro oc h
      cases oc with
      | networkError => rfl
      | httpError status => rfl
      | malformed => rfl
      | ok payload => simp [FetchOutcome.isFailure] at h

/-- Witness for C5: a network error on KuCoin's and OKX's orderbook
operations yields exactly their synthetic substitutes. -/
theorem spec_C5_witness :
    KuCoinAPIService.getOrderbook (fun _ => 0) "BTCUSDT" 20 .networkError 5
      = KuCoinAPIService.getMockOrderbook (fun _ => 0) "BTCUSDT" 5 ∧
    OKXAPIService.getOrderbook (fun _ => 0) "BTCUSDT" 20 (.httpError 500) 5
      = OKXAPIService.getMockOrderbook (fun _ => 0) "BTCUSDT" 5 := by
  have H := spec_C5 (fun _ => 0) "BTCUSDT" "1day" 20 5
  exact ⟨H.1 .networkError rfl, H.2.2.2.1 (.httpError 500) rfl⟩

/-- The current-source-is-kucoin state used by the C7 theorems. -/
def wC7State : ManagerState :=
  APIManagerService.forceSwitch APIManagerService.initialState .kucoin

/-- The kucoin adapter's orderbook operation with a failing fetch, wrapped
as the aggregator's retry operation: the adapter absorbs the failure and
resolves with its synthetic substitute, so the wrapped operation never
throws. -/
def wC7Op : ℕ → Except ℕ Orderbook :=
  fun _ => Except.ok (KuCoinAPIService.getOrderbook (fun _ => 0) "BTCUSDT" 20 .networkError 5)

/-- Counterexample to C7 as stated: a request through kucoin whose failure
was absorbed by the adapter's synthetic-data fallback (the returned data IS
the adapter's mock substitute, tagged with the real source) leaves the
health record HEALTHY with `errorCount = 0` and `consecutiveFailures = 0` —
not unhealthy with incremented counters. -/
theorem spec_C7_counterexample :
    (APIManagerService.getOrderbook wC7State wC7Op (fun _ => 0) "BTCUSDT" 5).data
      = KuCoinAPIService.getMockOrderbook (fun _ => 0) "BTCUSDT" 5 ∧
    (APIManagerService.getOrderbook wC7State wC7Op (fun _ => 0) "BTCUSDT" 5).source
      = APISource.kucoin ∧
    assocGet (APIManagerService.getOrderbook wC7State wC7Op
        (fun _ => 0) "BTCUSDT" 5).state.apiHealth .kucoin
      = some { source := .kucoin, isHealthy := true, lastChecked := 5,
               responseTime := none, errorCount := 0, consecutiveFailures := 0 } :=
  ⟨rfl, rfl, rfl⟩

namespace APIManagerService

theorem retryWEB_okFirst {ε α : Type} (st : ManagerState) (op : ℕ → Except ε α)
    (now : ℤ) (h : APIHealth) (v : α)
    (hget : assocGet st.apiHealth st.currentSource = some h)
    (hmr : 0 < st.retryConfig.maxRetries)
    (hok : op 0 = Except.ok v) :
    retryWithExponentialBackoff st op st.currentSource now
      = ⟨updateHealth st st.currentSource true none now, [], 1, Except.ok v⟩ := by
  simp only [retryWithExponentialBackoff, hget]
  obtain ⟨f, hf⟩ : ∃ f, st.retryConfig.maxRetries = f + 1 :=
    ⟨st.retryConfig.maxRetries - 1, by omega⟩
  rw [hf, retryGo_succ_ok st.currentSource now st f 0 hok]

end APIManagerService

/-- C7 (amended): a request through a source that fails with a THROWN error
transitions its health record to unhealthy and increments both `errorCount`
and `consecutiveFailures`; but a request whose failure was absorbed by the
adapter's own synthetic-data fallback never throws, so the aggregator
records it as a success — the record becomes healthy with both counters
reset to 0, even though the delivered data is the adapter's synthetic
substitute tagged with the real source. -/
theorem spec_C7 (st : ManagerState) (source : APISource) (h : APIHealth)
    (rt : Option ℤ) (now : ℤ)
    (hget : assocGet st.apiHealth source = some h) :
    ((assocGet (APIManagerService.updateHealth st source false rt now).apiHealth source).map
        (fun r => (r.isHealthy, r.errorCount, r.consecutiveFailures))
      = some (false, h.errorCount + 1, h.consecutiveFailures + 1)) ∧
    (∀ (rnd : ℕ → ℚ) (symbol : String) (oc : FetchOutcome KuCoinOrderbook),
      oc.isFailure = true →
      st.fallbackToMock = false →
      st.currentSource = source →
      0 < st.retryConfig.maxRetries →
      ((assocGet (APIManagerService.getOrderbook st
            (fun _ => (Except.ok (KuCoinAPIService.getOrderbook rnd symbol 20 oc now) : Except ℕ Orderbook))
            rnd symbol now).state.apiHealth source).map
          (fun r => (r.isHealthy, r.errorCount, r.consecutiveFailures))
        = some (true, 0, 0)) ∧
      (APIManagerService.getOrderbook st
          (fun _ => (Except.ok (KuCoinAPIService.getOrderbook rnd symbol 20 oc now) : Except ℕ Orderbook))
          rnd symbol now).data
        = KuCoinAPIService.getMockOrderbook rnd symbol now) := by
  constructor
  · rw [APIManagerService.assocGet_updateHealth_self false rt now hget]
    simp [APIManagerService.updatedRecord]
  · intro rnd symbol oc hoc hmock hcur hmr
    subst hcur
    have hweb := APIManagerService.retryWEB_okFirst st
      (fun _ => (Except.ok (KuCoinAPIService.getOrderbook rnd symbol 20 oc now) : Except ℕ Orderbook))
      now h (KuCoinAPIService.getOrderbook rnd symbol 20 oc now) hget hmr rfl
    constructor
    · simp only [APIManagerService.getOrderbook, hmock, Bool.false_eq_true, if_false, hweb]
      rw [APIManagerService.assocGet_updateHealth_self true none now hget]
      simp [APIManagerService.updatedRecord]
    · simp only [APIManagerService.getOrderbook, hmock, Bool.false_eq_true, if_false, hweb]
      cases oc with
      | networkError => rfl
      | httpError status => rfl
      | malformed => rfl
      | ok payload => simp [FetchOutcome.isFailure] at hoc

/-- Witness for C7 (amended): on the kucoin-selected state, a thrown error
makes the record unhealthy with counters 1; an adapter-absorbed failure
(malformed response) records a success with counters 0. -/
theorem spec_C7_witness :
    (assocGet (APIManagerService.updateHealth wC7State .kucoin false none 9).apiHealth
        .kucoin).map (fun r => (r.isHealthy, r.errorCount, r.consecutiveFailures))
      = some (false, 1, 1) ∧
    (assocGet (APIManagerService.getOrderbook wC7State
          (fun _ => (Except.ok (KuCoinAPIService.getOrderbook (fun _ => 0) "ETHUSDT" 20
            .malformed 9) : Except ℕ Orderbook))
          (fun _ => 0) "ETHUSDT" 9).state.apiHealth .kucoin).map
        (fun r => (r.isHealthy, r.errorCount, r.consecutiveFailures))
      = some (true, 0, 0) := by
  have H := spec_C7 wC7State .kucoin (APIManagerService.initialHealth .kucoin) none 9
    (by decide)
  exact ⟨H.1, (H.2 (fun _ => 0) "ETHUSDT" .malformed rfl rfl rfl (by decide)).1⟩

/-- Counterexample to C8 as stated: `Math.random()` may return any value of
`[0, 1)`, and with the all-zero draw sequence every bid level gets the same
price, so the generated bids are NOT strictly descending (the claim's
`bids[i].price > bids[i+1].price` fails between the first two of the 20
levels). -/
theorem spec_C8_counterexample :
    ¬ (MockDataService.generateOrderbook (fun _ => 0) "ETHUSDT" 0).bids.Pairwise
        (fun a b => b.price < a.price) := by
  intro hpw
  have hbids : ∀ x ∈ (MockDataService.generateOrderbook (fun _ => 0) "ETHUSDT" 0).bids,
      ∀ y ∈ (MockDataService.generateOrderbook (fun _ => 0) "ETHUSDT" 0).bids,
      x.price = y.price := by
    intro x hx y hy
    simp only [MockDataService.generateOrderbook] at hx hy
    rw [mem_sortBy] at hx hy
    simp only [List.mem_map, List.mem_range] at hx hy
    obtain ⟨i, hi, rfl⟩ := hx
    obtain ⟨j, hj, rfl⟩ := hy
    simp [mul_zero, zero_mul, sub_zero]
  have hlen : (MockDataService.generateOrderbook (fun _ => 0) "ETHUSDT" 0).bids.length
      = 20 := by
    simp only [MockDataService.generateOrderbook]
    rw [length_sortBy, List.length_map, List.length_range]
  generalize hgen : (MockDataService.generateOrderbook (fun _ => 0) "ETHUSDT" 0).bids = l
      at hpw hbids hlen
  rcases l with _ | ⟨a, _ | ⟨b, rest⟩⟩
  · simp at hlen
  · simp at hlen
  · have hab := (List.pairwise_cons.mp hpw).1 b (by simp)
    have heq := hbids a (by simp) b (by simp)
    rw [heq] at hab
    exact lt_irrefl _ hab

/-- C8 (amended): for every symbol and every sequence of random draws in
`[0, 1)`, `generateOrderbook` returns exactly 20 bid levels and 20 ask
levels, with bid prices sorted in non-increasing order and ask prices in
non-decreasing order (the ordering is not strict in general: draws may
produce equal prices), and every ask price strictly exceeds every bid price
— in particular `asks[0].price > bids[0].price`, a positive spread. -/
theorem spec_C8 (rnd : ℕ → ℚ) (symbol : String) (now : ℤ)
    (hrnd : ∀ n, 0 ≤ rnd n ∧ rnd n < 1) :
    (MockDataService.generateOrderbook rnd symbol now).bids.length = 20 ∧
    (MockDataService.generateOrderbook rnd symbol now).asks.length = 20 ∧
    (MockDataService.generateOrderbook rnd symbol now).bids.Pairwise
      (fun a b => b.price ≤ a.price) ∧
    (MockDataService.generateOrderbook rnd symbol now).asks.Pairwise
      (fun a b => a.price ≤ b.price) ∧
    (∀ b ∈ (MockDataService.generateOrderbook rnd symbol now).bids,
      ∀ a ∈ (MockDataService.generateOrderbook rnd symbol now).asks,
        b.price < a.price) ∧
    (∀ b a, (MockDataService.generateOrderbook rnd symbol now).bids.head? = some b →
      (MockDataService.generateOrderbook rnd symbol now).asks.head? = some a →
      b.price < a.price) := by
  have hspread : ∀ b ∈ (MockDataService.generateOrderbook rnd symbol now).bids,
      ∀ a ∈ (MockDataService.generateOrderbook rnd symbol now).asks, b.price < a.price := by
    intro b hb a ha
    simp only [MockDataService.generateOrderbook] at hb ha
    rw [mem_sortBy] at hb ha
    simp only [List.mem_map, List.mem_range] at hb ha
    obtain ⟨i, hi, rfl⟩ := hb
    obtain ⟨j, hj, rfl⟩ := ha
    dsimp only
    obtain ⟨h00, h01⟩ := hrnd 0
    obtain ⟨hri, _⟩ := hrnd (1 + 2 * i)
    obtain ⟨hrj, _⟩ := hrnd (41 + 2 * j)
    have hti : 0 ≤ ((i : ℚ) + 1) * rnd (1 + 2 * i) * 50 := by
      have : (0 : ℚ) ≤ (i : ℚ) + 1 := by positivity
      have := mul_nonneg this hri
      linarith
    have htj : 0 ≤ ((j : ℚ) + 1) * rnd (41 + 2 * j) * 50 := by
      have : (0 : ℚ) ≤ (j : ℚ) + 1 := by positivity
      have := mul_nonneg this hrj
      linarith
    have hL := roundTo_le 2 (45000 + (rnd 0 - 1 / 2) * 10000
      - (45000 + (rnd 0 - 1 / 2) * 10000) * (2 / 10000) / 2
      - ((i : ℚ) + 1) * rnd (1 + 2 * i) * 50)
    have hR := lt_roundTo 2 (45000 + (rnd 0 - 1 / 2) * 10000
      + (45000 + (rnd 0 - 1 / 2) * 10000) * (2 / 10000) / 2
      + ((j : ℚ) + 1) * rnd (41 + 2 * j) * 50)
    norm_num at hL hR
    linarith
  refine ⟨?_, ?_, ?_, ?_, hspread, ?_⟩
  · simp only [MockDataService.generateOrderbook]
    rw [length_sortBy, List.length_map, List.length_range]
  · simp only [MockDataService.generateOrderbook]
    rw [length_sortBy, List.length_map, List.length_range]
  · simp only [MockDataService.generateOrderbook]
    apply pairwise_sortBy
    · intro a b hab
      exact of_decide_eq_true hab
    · intro a b hab
      exact le_of_not_le (of_decide_eq_false hab)
    · intro a b c h1 h2
      exact le_trans h2 h1
  · simp only [MockDataService.generateOrderbook]
    apply pairwise_sortBy
    · intro a b hab
      exact of_decide_eq_true hab
    · intro a b hab
      exact le_of_not_le (of_decide_eq_false hab)
    · intro a b c h1 h2
      exact le_trans h1 h2
  · intro b a hb ha
    exact hspread b (List.mem_of_mem_head? hb) a (List.mem_of_mem_head? ha)

/-- Witness for C8 (amended): the half-everywhere draw sequence generates an
orderbook with 20 bids, 20 asks and a positive best-bid/best-ask spread. -/
theorem spec_C8_witness :
    (MockDataService.generateOrderbook (fun _ => 1 / 2) "ETHUSDT" 0).bids.length = 20 ∧
    (MockDataService.generateOrderbook (fun _ => 1 / 2) "ETHUSDT" 0).asks.length = 20 ∧
    (∀ b a,
      (MockDataService.generateOrderbook (fun _ => 1 / 2) "ETHUSDT" 0).bids.head? = some b →
      (MockDataService.generateOrderbook (fun _ => 1 / 2) "ETHUSDT" 0).asks.head? = some a →
      b.price < a.price) := by
  have H := spec_C8 (fun _ => 1 / 2) "ETHUSDT" 0 (fun _ => by norm_num)
  exact ⟨H.1, H.2.1, H.2.2.2.2.2⟩

/-! ## Streaming channels (`enhanced-websocket.ts` and the plain
`WebSocketService`)

The subscriber map `Map<string, Set<(data) => void>>` stores callback
function references; we model references as identifiers `ℕ` and supply the
behaviour of each callback separately as `impl : ℕ → δ → Except ε Unit`
(an `Except.error` models a thrown exception). A JS `Set` is a
duplicate-free insertion-ordered list; `Set.add` appends only if absent. -/

theorem assocGet_eq_none_of_not_mem_keys {κ ν : Type} [DecidableEq κ] :
    ∀ {l : List (κ × ν)} {s : κ}, s ∉ l.map Prod.fst → assocGet l s = none
  | [], _, _ => rfl
  | (k, w) :: rest, s, h => by
    have hks : ¬ k = s := by
      intro he
      exact h (by rw [List.map_cons, he]; exact List.mem_cons_self _ _)
    have hrest : s ∉ rest.map Prod.fst := by
      intro hm
      exact h (by rw [List.map_cons]; exact List.mem_cons_of_mem _ hm)
    simp [assocGet, hks, assocGet_eq_none_of_not_mem_keys hrest]

theorem mem_keys_assocSet {κ ν : Type} [DecidableEq κ] :
    ∀ {l : List (κ × ν)} {s x : κ} {v : ν},
      x ∈ (assocSet l s v).map Prod.fst → x ∈ l.map Prod.fst ∨ x = s
  | [], s, x, v, h => Or.inr (by simpa [assocSet] using h)
  | (k, w) :: rest, s, x, v, h => by
    by_cases hk : k = s
    · rw [List.map_cons]
      simp only [assocSet, if_pos hk, List.map_cons, List.mem_cons] at h
      rcases h with h | h
      · exact Or.inr h
      · exact Or.inl (List.mem_cons_of_mem _ h)
    · rw [List.map_cons]
      simp only [assocSet, if_neg hk, List.map_cons, List.mem_cons] at h
      rcases h with h | h
      · exact Or.inl (List.mem_cons.mpr (Or.inl h))
      · rcases mem_keys_assocSet h with h2 | h2
        · exact Or.inl (List.mem_cons_of_mem _ h2)
        · exact Or.inr h2

theorem keys_nodup_assocSet {κ ν : Type} [DecidableEq κ] :
    ∀ {l : List (κ × ν)} (s : κ) (v : ν), (l.map Prod.fst).Nodup →
      ((assocSet l s v).map Prod.fst).Nodup
  | [], s, v, _ => by simp [assocSet]
  | (k, w) :: rest, s, v, h => by
    rw [List.map_cons, List.nodup_cons] at h
    obtain ⟨hknot, hrest⟩ := h
    by_cases hk : k = s
    · subst hk
      simp only [assocSet, if_pos rfl, List.map_cons]
      exact List.nodup_cons.mpr ⟨hknot, hrest⟩
    · simp only [assocSet, if_neg hk, List.map_cons]
      refine List.nodup_cons.mpr ⟨?_, keys_nodup_assocSet s v hrest⟩
      intro hmem
      rcases mem_keys_assocSet hmem with hx | hx
      · exact hknot hx
      · exact hk hx

theorem assocGet_assocDelete_self {κ ν : Type} [DecidableEq κ] :
    ∀ {l : List (κ × ν)} (s : κ), (l.map Prod.fst).Nodup →
      assocGet (assocDelete l s) s = none
  | [], _, _ => rfl
  | (k, w) :: rest, s, h => by
    rw [List.map_cons, List.nodup_cons] at h
    obtain ⟨hknot, hrest⟩ := h
    by_cases hk : k = s
    · subst hk
      simp only [assocDelete, if_pos rfl]
      exact assocGet_eq_none_of_not_mem_keys hknot
    · simp [assocDelete, assocGet, hk, assocGet_assocDelete_self s hrest]

/-- The subscriber map of a streaming service (`Map<string, Set<cb>>`). -/
structure WSState where
  subscribers : List (String × List ℕ)
deriving DecidableEq, Repr

/-- A freshly constructed service: no channels. -/
def WSState.empty : WSState := ⟨[]⟩

/-- JS `Set.add`: append only if absent. -/
def setAdd (l : List ℕ) (x : ℕ) : List ℕ := if x ∈ l then l else l ++ [x]

namespace EnhancedWebSocketService

/-- `subscribe(channel, callback)` from `enhanced-websocket.ts`: create the
channel's subscriber set if missing, then add the callback to it. (The
returned unsubscribe closure is `unsubscribe channel callback`.) -/
def subscribe (st : WSState) (channel : String) (callback : ℕ) : WSState :=
  match assocGet st.subscribers channel with
  | none => ⟨assocSet st.subscribers channel (setAdd [] callback)⟩
  | some channelSubscribers =>
    ⟨assocSet st.subscribers channel (setAdd channelSubscribers callback)⟩

/-- The closure returned by `subscribe`: delete exactly that callback from
the channel's set, and delete the channel's (now empty) set entirely when it
was the last subscriber. -/
def unsubscribe (channel : String) (callback : ℕ) (st : WSState) : WSState :=
  match assocGet st.subscribers channel with
  | none => st
  | some channelSubscribers =>
    let remaining := channelSubscribers.erase callback
    if remaining.length = 0 then ⟨assocDelete st.subscribers channel⟩
    else ⟨assocSet st.subscribers channel remaining⟩

/-- `notifySubscribers(channel, data)` from `enhanced-websocket.ts`: every
callback is invoked inside its own try/catch, so a thrown exception is
logged and the iteration continues. Returns the invocation trace (each
invoked callback with its outcome). -/
def notifySubscribers {δ ε : Type} (st : WSState) (channel : String)
    (impl : ℕ → δ → Except ε Unit) (data : δ) : List (ℕ × Except ε Unit) :=
  match assocGet st.subscribers channel with
  | none => []
  | some channelSubscribers => channelSubscribers.map (fun cb => (cb, impl cb data))

end EnhancedWebSocketService

namespace WebSocketService

/-- `subscribe(channel, callback)` from the plain `WebSocketService`
(verbatim the same logic as the enhanced service). -/
def subscribe (st : WSState) (channel : String) (callback : ℕ) : WSState :=
  match assocGet st.subscribers channel with
  | none => ⟨assocSet st.subscribers channel (setAdd [] callback)⟩
  | some callbacks => ⟨assocSet st.subscribers channel (setAdd callbacks callback)⟩

/-- The body of `callbacks.forEach(callback => callback(data))` with NO
try/catch: a thrown exception aborts the iteration and propagates to the
publisher. Returns the invocation trace and the propagated exception, if
any. -/
def notifyRun {δ ε : Type} (impl : ℕ → δ → Except ε Unit) (data : δ) :
    List ℕ → List (ℕ × Except ε Unit) × Option ε
  | [] => ([], none)
  | cb :: rest =>
    match impl cb data with
    | .ok _ =>
      let r := notifyRun impl data rest
      ((cb, Except.ok ()) :: r.1, r.2)
    | .error e => ([(cb, Except.error e)], some e)

/-- `notifySubscribers(channel, data)` from the plain `WebSocketService`. -/
def notifySubscribers {δ ε : Type} (st : WSState) (channel : String)
    (impl : ℕ → δ → Except ε Unit) (data : δ) :
    List (ℕ × Except ε Unit) × Option ε :=
  match assocGet st.subscribers channel with
  | none => ([], none)
  | some callbacks => notifyRun impl data callbacks

end WebSocketService

/-- Two subscribers (ids 0 and 1, in that order) on the `orderbook` channel
of the plain `WebSocketService`. -/
def wC9State : WSState :=
  WebSocketService.subscribe (WebSocketService.subscribe WSState.empty "orderbook" 0)
    "orderbook" 1

/-- Callback behaviour: subscriber 0 throws (`Except.error 7`), everyone
else returns normally. -/
def wC9Impl : ℕ → ℕ → Except ℕ Unit :=
  fun cb _ => if cb = 0 then Except.error 7 else Except.ok ()

/-- Counterexample to C9 as stated: in the plain `WebSocketService` (whose
`notifySubscribers` has no per-callback try/catch), publishing to a channel
with two subscribers where the first throws invokes ONLY the first —
subscriber 1 is never called, and the exception propagates to the
publisher. -/
theorem spec_C9_counterexample :
    assocGet wC9State.subscribers "orderbook" = some [0, 1] ∧
    (WebSocketService.notifySubscribers wC9State "orderbook" wC9Impl 0).1.map Prod.fst
      = [0] ∧
    (WebSocketService.notifySubscribers wC9State "orderbook" wC9Impl 0).2 = some 7 :=
  ⟨rfl, rfl, rfl⟩

/-- C9 (amended): in `EnhancedWebSocketService`, publishing invokes every
currently subscribed callback even if some throw (each invocation is
isolated in its own try/catch), the trace covering the subscriber set in
order; in the plain `WebSocketService`, an exception thrown by a subscriber
prevents the invocation of all remaining subscribers and propagates to the
publisher. -/
theorem spec_C9 {δ ε : Type} (st : WSState) (channel : String)
    (impl : ℕ → δ → Except ε Unit) (data : δ) (callbacks : List ℕ)
    (hchan : assocGet st.subscribers channel = some callbacks) :
    (EnhancedWebSocketService.notifySubscribers st channel impl data).map Prod.fst
      = callbacks ∧
    (∀ cb rest e, callbacks = cb :: rest → impl cb data = Except.error e →
      (WebSocketService.notifySubscribers st channel impl data).1
        = [(cb, Except.error e)] ∧
      (WebSocketService.notifySubscribers st channel impl data).2 = some e) := by
  constructor
  · simp only [EnhancedWebSocketService.notifySubscribers, hchan]
    rw [List.map_map]
    have hid : (Prod.fst ∘ fun cb => ((cb, impl cb data) : ℕ × Except ε Unit)) = id := rfl
    rw [hid, List.map_id]
  · intro cb rest e hcb he
    subst hcb
    refine ⟨?_, ?_⟩ <;>
      simp only [WebSocketService.notifySubscribers, hchan, WebSocketService.notifyRun, he]

/-- Witness for C9 (amended): on the two-subscriber channel where
subscriber 0 throws, the enhanced service's trace covers both subscribers
while the plain service's trace stops at subscriber 0. -/
theorem spec_C9_witness :
    (EnhancedWebSocketService.notifySubscribers wC9State "orderbook" wC9Impl 0).map
        Prod.fst = [0, 1] ∧
    (WebSocketService.notifySubscribers wC9State "orderbook" wC9Impl 0).1
      = [(0, Except.error 7)] := by
  have H := spec_C9 wC9State "orderbook" wC9Impl 0 [0, 1] rfl
  exact ⟨H.1, (H.2 0 [1] 7 rfl rfl).1⟩

namespace EnhancedWebSocketService

theorem subscribe_get_some {st : WSState} {channel : String} {l : List ℕ} (cb : ℕ)
    (h : assocGet st.subscribers channel = some l) :
    subscribe st channel cb = ⟨assocSet st.subscribers channel (setAdd l cb)⟩ := by
  simp only [subscribe, h]

theorem unsubscribe_get_some {st : WSState} {channel : String} {l : List ℕ} (cb : ℕ)
    (h : assocGet st.subscribers channel = some l) :
    unsubscribe channel cb st
      = if (l.erase cb).length = 0 then ⟨assocDelete st.subscribers channel⟩
        else ⟨assocSet st.subscribers channel (l.erase cb)⟩ := by
  simp only [unsubscribe, h]

theorem notifySubscribers_get_some {δ ε : Type} {st : WSState} {channel : String}
    {l : List ℕ} (impl : ℕ → δ → Except ε Unit) (data : δ)
    (h : assocGet st.subscribers channel = some l) :
    notifySubscribers st channel impl data = l.map (fun cb => (cb, impl cb data)) := by
  simp only [notifySubscribers, h]

end EnhancedWebSocketService

/-- C10: subscriber sets have set semantics. Subscribing the same callback
to the same channel twice registers it once (the second subscribe is a
no-op), a publish then invokes that callback exactly once, and a single call
to the returned unsubscribe closure removes it from the channel entirely
(deleting the channel's set if it became empty). Stated for a service state
whose subscriber map has no duplicate channel keys (as any JS `Map` has) and
whose channel does not already hold the callback. -/
theorem spec_C10 {δ ε : Type} (st : WSState) (channel : String) (f : ℕ)
    (impl : ℕ → δ → Except ε Unit) (data : δ)
    (hnodup : (st.subscribers.map Prod.fst).Nodup)
    (hf : ∀ callbacks, assocGet st.subscribers channel = some callbacks → f ∉ callbacks) :
    EnhancedWebSocketService.subscribe
        (EnhancedWebSocketService.subscribe st channel f) channel f
      = EnhancedWebSocketService.subscribe st channel f ∧
    ((EnhancedWebSocketService.notifySubscribers
        (EnhancedWebSocketService.subscribe
          (EnhancedWebSocketService.subscribe st channel f) channel f)
        channel impl data).map Prod.fst).count f = 1 ∧
    (∀ callbacks,
      assocGet (EnhancedWebSocketService.unsubscribe channel f
          (EnhancedWebSocketService.subscribe
            (EnhancedWebSocketService.subscribe st channel f) channel f)).subscribers
          channel
        = some callbacks → f ∉ callbacks) := by
  have main : ∀ cur : List ℕ, f ∉ cur →
      EnhancedWebSocketService.subscribe st channel f
        = ⟨assocSet st.subscribers channel (cur ++ [f])⟩ →
      (EnhancedWebSocketService.subscribe
          (EnhancedWebSocketService.subscribe st channel f) channel f
        = EnhancedWebSocketService.subscribe st channel f ∧
      ((EnhancedWebSocketService.notifySubscribers
          (EnhancedWebSocketService.subscribe
            (EnhancedWebSocketService.subscribe st channel f) channel f)
          channel impl data).map Prod.fst).count f = 1 ∧
      (∀ callbacks,
        assocGet (EnhancedWebSocketService.unsubscribe channel f
            (EnhancedWebSocketService.subscribe
              (EnhancedWebSocketService.subscribe st channel f) channel f)).subscribers
            channel
          = some callbacks → f ∉ callbacks)) := by
    intro cur hfcur hsub1
    have hget1 : assocGet (EnhancedWebSocketService.subscribe st channel f).subscribers
        channel = some (cur ++ [f]) := by
      rw [hsub1]
      exact assocGet_assocSet_self _ _ _
    have hidem : EnhancedWebSocketService.subscribe
        (EnhancedWebSocketService.subscribe st channel f) channel f
        = EnhancedWebSocketService.subscribe st channel f := by
      rw [EnhancedWebSocketService.subscribe_get_some f hget1]
      have hs : setAdd (cur ++ [f]) f = cur ++ [f] := by
        simp [setAdd]
      rw [hs, assocSet_eq_self hget1]
    refine ⟨hidem, ?_, ?_⟩
    · rw [hidem, EnhancedWebSocketService.notifySubscribers_get_some impl data hget1]
      rw [List.map_map]
      have hid : (Prod.fst ∘ fun cb => ((cb, impl cb data) : ℕ × Except ε Unit)) = id := rfl
      rw [hid, List.map_id, List.count_append]
      rw [List.count_eq_zero_of_not_mem hfcur]
      simp
    · rw [hidem]
      intro callbacks hc
      rw [EnhancedWebSocketService.unsubscribe_get_some f hget1] at hc
      have her : (cur ++ [f]).erase f = cur := by
        rw [List.erase_append_right _ hfcur, List.erase_cons_head, List.append_nil]
      rw [her] at hc
      rcases cur with _ | ⟨c0, ctail⟩
      · have hz : ([] : List ℕ).length = 0 := rfl
        rw [if_pos hz] at hc
        dsimp only at hc
        have hnodup1 : ((EnhancedWebSocketService.subscribe st channel f).subscribers.map
            Prod.fst).Nodup := by
          rw [hsub1]
          exact keys_nodup_assocSet channel _ hnodup
        rw [assocGet_assocDelete_self channel hnodup1] at hc
        cases hc
      · have hz : ¬ ((c0 :: ctail).length = 0) := by simp
        rw [if_neg hz] at hc
        dsimp only at hc
        rw [assocGet_assocSet_self] at hc
        obtain rfl : c0 :: ctail = callbacks := by injection hc
        exact hfcur
  rcases hget0 : assocGet st.subscribers channel with _ | cur
  · apply main [] (by simp)
    simp [EnhancedWebSocketService.subscribe, hget0, setAdd]
  · apply main cur (hf cur hget0)
    have hs : setAdd cur f = cur ++ [f] := by
      simp [setAdd, hf cur hget0]
    simp [EnhancedWebSocketService.subscribe, hget0, hs]

/-- Witness for C10: on a fresh service, subscribing callback 0 twice to
`orderbook` registers it once, a publish invokes it exactly once, and one
unsubscribe removes it entirely. -/
theorem spec_C10_witness :
    EnhancedWebSocketService.subscribe
        (EnhancedWebSocketService.subscribe WSState.empty "orderbook" 0) "orderbook" 0
      = EnhancedWebSocketService.subscribe WSState.empty "orderbook" 0 ∧
    ((EnhancedWebSocketService.notifySubscribers
        (EnhancedWebSocketService.subscribe
          (EnhancedWebSocketService.subscribe WSState.empty "orderbook" 0) "orderbook" 0)
        "orderbook" (fun _ _ => (Except.ok () : Except ℕ Unit)) (0 : ℕ)).map
        Prod.fst).count 0 = 1 := by
  have H := spec_C10 WSState.empty "orderbook" 0
    (fun _ _ => (Except.ok () : Except ℕ Unit)) (0 : ℕ)
    (by simp [WSState.empty])
    (by intro callbacks hc; simp [WSState.empty, assocGet] at hc)
  exact ⟨H.1, H.2.1⟩
